import Mathlib

/-!
# Verification of the funds-transfer core of `radugaf/go-backend`

Shallow embedding of `src/db/sqlc/store.go` (`execTx`, `TransferTx`, `addMoney`), of the
handlers `getBankAccount` and `listBankAccounts` of `src/api/bank_account.go` and of
`JWTGenerator.ValidateToken` of `src/token/generator.go`.

* Go `int64` and `int32` values are integers; Go-side arithmetic wraps: the negation
  `-arg.Amount` modulo `2^64` (`neg64`), the offset of `listBankAccounts` modulo `2^32`
  (`sub32`, `mul32`). The store keeps balances in a `bigint` column and refuses an
  increment that leaves its range.
* A Go pair `(value, error)` is a pair `(value, Option GoError)`; `none` is `nil`.
* The database is an explicit `Ledger` value. A transaction works on a copy of the
  committed ledger; the copy replaces the committed ledger on commit and is dropped
  on rollback.
* The behaviour of the environment (a statement, `BeginTx`, `Rollback` or `Commit`
  failing) is supplied through a `Faults` value, so every run of the code is a run of
  the model for some `Faults`.
* Every call that reaches the database is recorded in an event log, which is what the
  claims about the order and the number of store operations are stated over.

The sqlc-generated queries (`CreateTransfer`, `CreateEntry`, `AddBankAccountBalance`)
and the record types are not part of the source tree; they are modelled from §3, §4.1
and §6 of the specification and marked as such. The store behind the handlers, the JWT
library and the error values and payload type of the token package are parameters.
-/

namespace Bank

/-! ## Machine integers -/

/-- Least value of a Go `int64`. -/
def minInt64 : Int := -9223372036854775808

/-- Greatest value of a Go `int64`. -/
def maxInt64 : Int := 9223372036854775807

/-- Membership in the range of `int64`. -/
def isInt64 (x : Int) : Prop := minInt64 ≤ x ∧ x ≤ maxInt64

instance (x : Int) : Decidable (isInt64 x) := by
  unfold isInt64; infer_instance

/-- Two's-complement reduction of an integer to the `int64` range. -/
def wrapInt64 (x : Int) : Int :=
  (x + 9223372036854775808) % 18446744073709551616 - 9223372036854775808

/-- Go unary minus on `int64`: `-x` with wrap-around (so `-minInt64 = minInt64`). -/
def neg64 (x : Int) : Int := wrapInt64 (-x)

/-! ## Errors -/

/-- A Go `error` value, identified by the text its `Error()` method returns. -/
structure GoError where
  msg : String
deriving DecidableEq, Repr

/-- The value of `fmt.Errorf("tx err: %v, rb err: %v", err, rbErr)` in `execTx`. -/
def rollbackFailure (err rbErr : GoError) : GoError :=
  GoError.mk ("tx err: " ++ err.msg ++ ", rb err: " ++ rbErr.msg)

/-- Modelled from the spec: the `ReferentialError` of §4.1/§7 that the store raises when
a referenced account identifier does not exist (foreign keys of §6). -/
def ErrForeignKey : GoError := GoError.mk "pq: violates foreign key constraint"

/-- Modelled from the spec: the `NotFound` condition of §4.1/§7 (`sql.ErrNoRows` in the
tests of the repository) reported when a statement that returns one row finds none. -/
def ErrNoRows : GoError := GoError.mk "sql: no rows in result set"

/-- Modelled from the spec: the error of the store when a value does not fit the `bigint`
column it is written to (§6: `balance bigint`). -/
def ErrOutOfRange : GoError := GoError.mk "pq: bigint out of range"

/-! ## Records (§3, §6 of the specification; field names as used in `store.go` and its tests) -/

/-- Modelled from the spec: the `accounts` row (type declaration not in the source tree). -/
structure BankAccount where
  ID : Int
  Owner : String
  Balance : Int
  Currency : String
  CreatedAt : Int
deriving DecidableEq, Repr

/-- Modelled from the spec: the `entries` row (type declaration not in the source tree). -/
structure Entry where
  ID : Int
  AccountID : Int
  Amount : Int
  CreatedAt : Int
deriving DecidableEq, Repr

/-- Modelled from the spec: the `transfers` row (type declaration not in the source tree). -/
structure Transfer where
  ID : Int
  FromAccountID : Int
  ToAccountID : Int
  Amount : Int
  CreatedAt : Int
deriving DecidableEq, Repr

/-- Go zero value of `BankAccount`. -/
def BankAccount.zero : BankAccount := BankAccount.mk 0 "" 0 "" 0

/-- Go zero value of `Entry`. -/
def Entry.zero : Entry := Entry.mk 0 0 0 0

/-- Go zero value of `Transfer`. -/
def Transfer.zero : Transfer := Transfer.mk 0 0 0 0 0

/-- Parameters of `CreateTransfer` (as built in `TransferTx`). -/
structure CreateTransferParams where
  FromAccountID : Int
  ToAccountID : Int
  Amount : Int
deriving DecidableEq, Repr

/-- Parameters of `CreateEntry` (as built in `TransferTx`). -/
structure CreateEntryParams where
  AccountID : Int
  Amount : Int
deriving DecidableEq, Repr

/-- Parameters of `AddBankAccountBalance` (as built in `addMoney`). -/
structure AddBankAccountBalanceParams where
  ID : Int
  Amount : Int
deriving DecidableEq, Repr

/-- The struct `TransferTxResult` of `store.go`. -/
structure TransferTxResult where
  FromAccount : BankAccount
  ToAccount : BankAccount
  Transfer : Transfer
  FromEntry : Entry
  ToEntry : Entry
deriving DecidableEq, Repr

/-- Go zero value of `TransferTxResult` (`var result TransferTxResult`). -/
def TransferTxResult.zero : TransferTxResult :=
  TransferTxResult.mk BankAccount.zero BankAccount.zero Transfer.zero Entry.zero Entry.zero

/-! ## The store -/

/-- Modelled from the spec: the persisted schema of §6, three tables, and the clock the
store stamps new rows with. -/
structure Ledger where
  accounts : List BankAccount
  entries : List Entry
  transfers : List Transfer
  now : Int
deriving DecidableEq, Repr

/-- Whether an account row with this identifier exists. -/
def Ledger.hasAccount (l : Ledger) (id : Int) : Bool :=
  l.accounts.any (fun a => a.ID == id)

/-- Modelled from the spec: `getAccount(id)` of §4.1, the stored row with this identifier. -/
def Ledger.getAccount (l : Ledger) (id : Int) : Option BankAccount :=
  l.accounts.find? (fun a => a.ID == id)

/-- Stored balance of the account with this identifier. -/
def Ledger.balance (l : Ledger) (id : Int) : Option Int :=
  (l.getAccount id).map (fun a => a.Balance)

/-- Sum of the amounts of all entries posted on an account. -/
def Ledger.entrySum (l : Ledger) (id : Int) : Int :=
  ((l.entries.filter (fun e => e.AccountID == id)).map (fun e => e.Amount)).sum

/-- A fresh identifier for a table whose rows carry the given identifiers. -/
def freshID (ids : List Int) : Int := ids.foldl max 0 + 1

/-- Modelled from the spec: the `Transfer` row (§3) the store builds for `createTransfer`:
a new identifier, the three given fields and the creation timestamp. -/
def Ledger.newTransfer (l : Ledger) (arg : CreateTransferParams) : Transfer :=
  { ID := freshID (l.transfers.map (fun x => x.ID)),
    FromAccountID := arg.FromAccountID,
    ToAccountID := arg.ToAccountID,
    Amount := arg.Amount,
    CreatedAt := l.now }

/-- Modelled from the spec: the `Entry` row (§3) the store builds for `createEntry`:
a new identifier, the owning account, the signed amount and the creation timestamp. -/
def Ledger.newEntry (l : Ledger) (arg : CreateEntryParams) : Entry :=
  { ID := freshID (l.entries.map (fun x => x.ID)),
    AccountID := arg.AccountID,
    Amount := arg.Amount,
    CreatedAt := l.now }

/-- One call that reaches the database, in the order issued. -/
inductive Event where
  | beginTx
  | createTransfer (arg : CreateTransferParams)
  | createEntry (arg : CreateEntryParams)
  | addBankAccountBalance (arg : AddBankAccountBalanceParams)
  | rollback
  | commit
deriving DecidableEq, Repr

/-- Behaviour of the environment during one `execTx`: the error (if any) of `BeginTx`,
of each successive statement inside the transaction (statements beyond the end of the
list succeed), of `Rollback` and of `Commit`. -/
structure Faults where
  beginTx : Option GoError
  stmts : List (Option GoError)
  rollback : Option GoError
  commit : Option GoError
deriving DecidableEq, Repr

/-- The environment in which nothing fails. -/
def Faults.none : Faults := Faults.mk Option.none [] Option.none Option.none

/-- All statements inside the transaction succeed. -/
def Faults.stmtsOk (f : Faults) : Prop := ∀ o ∈ f.stmts, o = Option.none

/-- Modelled from the spec: the `Queries` object bound to an open transaction (`New(tx)`,
§9; the type is generated code outside the source tree): the transaction's
working copy of the ledger, the outcomes the environment will give to the statements
still to come, and the log of statements issued so far. -/
structure Queries where
  ledger : Ledger
  script : List (Option GoError)
  log : List Event
deriving DecidableEq, Repr

/-- The outcome the environment gives to the next statement. -/
def nextFault : List (Option GoError) → Option GoError
  | [] => none
  | o :: _ => o

/-- Issue a statement: record it and consume its scripted outcome. -/
def Queries.issue (q : Queries) (ev : Event) : Queries :=
  { ledger := q.ledger, script := q.script.tail, log := q.log ++ [ev] }

/-- Modelled from the spec: `createTransfer(fromID, toID, amount) → Transfer` of §4.1;
it appends one row to `transfers` and fails with `ReferentialError` if either account
identifier does not exist. A failing statement changes nothing and returns the zero row. -/
def Queries.CreateTransfer (q : Queries) (arg : CreateTransferParams) :
    (Transfer × Option GoError) × Queries :=
  let q1 := q.issue (Event.createTransfer arg)
  match nextFault q.script with
  | some e => ((Transfer.zero, some e), q1)
  | none =>
    if q.ledger.hasAccount arg.FromAccountID && q.ledger.hasAccount arg.ToAccountID then
      let t := q.ledger.newTransfer arg
      ((t, none), { q1 with ledger := { q.ledger with transfers := q.ledger.transfers ++ [t] } })
    else ((Transfer.zero, some ErrForeignKey), q1)

/-- Modelled from the spec: `createEntry(accountID, amount) → Entry` of §4.1; it appends
one row to `entries`, whose `account_id` is a foreign key into `accounts` (§6). -/
def Queries.CreateEntry (q : Queries) (arg : CreateEntryParams) :
    (Entry × Option GoError) × Queries :=
  let q1 := q.issue (Event.createEntry arg)
  match nextFault q.script with
  | some e => ((Entry.zero, some e), q1)
  | none =>
    if q.ledger.hasAccount arg.AccountID then
      let en := q.ledger.newEntry arg
      ((en, none), { q1 with ledger := { q.ledger with entries := q.ledger.entries ++ [en] } })
    else ((Entry.zero, some ErrForeignKey), q1)

/-- The row update of `adjustAccountBalance`: add `delta` to the balance of the rows
with identifier `id`, leaving every other field and every other row as it is. -/
def bumpBalance (id delta : Int) (a : BankAccount) : BankAccount :=
  if a.ID == id then { a with Balance := a.Balance + delta } else a

/-- Modelled from the spec: `adjustAccountBalance(id, delta) → Account` of §4.1, an
atomic read-and-increment in one store-side operation returning the row after mutation;
`NotFound` if no such row. The `balance` column is `bigint` (§6): an increment whose
result is not a 64-bit integer is refused by the store and changes nothing. -/
def Queries.AddBankAccountBalance (q : Queries) (arg : AddBankAccountBalanceParams) :
    (BankAccount × Option GoError) × Queries :=
  let q1 := q.issue (Event.addBankAccountBalance arg)
  match nextFault q.script with
  | some e => ((BankAccount.zero, some e), q1)
  | none =>
    match q.ledger.getAccount arg.ID with
    | none => ((BankAccount.zero, some ErrNoRows), q1)
    | some a =>
      if isInt64 (a.Balance + arg.Amount) then
        ((bumpBalance arg.ID arg.Amount a, none),
          { q1 with ledger :=
              { q.ledger with accounts := q.ledger.accounts.map (bumpBalance arg.ID arg.Amount) } })
      else ((BankAccount.zero, some ErrOutOfRange), q1)

/-! ## `store.go` -/

/-- Result of one run of `execTx`: the final value of the variables the closure
captures, the returned error, the committed ledger afterwards and the calls issued. -/
structure TxRun (κ : Type) where
  out : κ
  err : Option GoError
  db : Ledger
  log : List Event

/-- An open transaction (`*sql.Tx`): the committed ledger it was started from and the
environment that will answer its statements, its `Rollback` and its `Commit`. -/
structure Tx where
  base : Ledger
  faults : Faults

/-- The call `store.db.BeginTx(ctx, nil)` of `database/sql`: an open transaction, or the
error of the environment. -/
def BeginTx (f : Faults) (db : Ledger) : Except GoError Tx :=
  match f.beginTx with
  | some err => Except.error err
  | none => Except.ok { base := db, faults := f }

/-- Modelled from the spec: the call `New(tx)` (§9), a transaction-bound view exposing the
same record-creation operations; it works on the transaction's copy of the committed
ledger. -/
def New (tx : Tx) : Queries :=
  { ledger := tx.base, script := tx.faults.stmts, log := [Event.beginTx] }

/-- The call `tx.Rollback()` of `database/sql` against the transactional store of §1
(§4.4 step 1 and 7, §7). It returns the rollback error, if any, and the committed ledger
afterwards: every write of the transaction is dropped. -/
def Tx.Rollback (tx : Tx) : Option GoError × Ledger :=
  (tx.faults.rollback, tx.base)

/-- The call `tx.Commit()` of `database/sql` for a transaction whose working state is `q`
(§4.4 step 7, §7). All writes become the committed ledger together when the commit
succeeds; when it fails none of them does. -/
def Tx.Commit (tx : Tx) (q : Queries) : Option GoError × Ledger :=
  match tx.faults.commit with
  | some err => (some err, tx.base)
  | none => (none, q.ledger)

/-- The method `SQLStore.execTx` (store.go:29-48). The closure `fn` mutates captured variables of
type `κ` (initially `init`) and returns an error. -/
def execTx {κ : Type} (f : Faults) (db : Ledger)
    (fn : κ → Queries → (κ × Option GoError) × Queries) (init : κ) : TxRun κ :=
  match BeginTx f db with
  | Except.error err => { out := init, err := some err, db := db, log := [Event.beginTx] }
  | Except.ok tx =>
    let query := New tx
    let r := fn init query
    match r.1.2 with
    | some err =>
      let rb := tx.Rollback
      match rb.1 with
      | some rbErr =>
        { out := r.1.1, err := some (rollbackFailure err rbErr), db := rb.2,
          log := r.2.log ++ [Event.rollback] }
      | none => { out := r.1.1, err := some err, db := rb.2, log := r.2.log ++ [Event.rollback] }
    | none =>
      let c := tx.Commit r.2
      { out := r.1.1, err := c.1, db := c.2, log := r.2.log ++ [Event.commit] }

/-- The function `addMoney` (store.go:110-134), with its named results
`(account1, account2, err)`. -/
def addMoney (q : Queries) (accountID1 amount1 accountID2 amount2 : Int) :
    (BankAccount × BankAccount × Option GoError) × Queries :=
  let r1 := q.AddBankAccountBalance { ID := accountID1, Amount := amount1 }
  match r1.1.2 with
  | some err => ((r1.1.1, BankAccount.zero, some err), r1.2)
  | none =>
    let r2 := r1.2.AddBankAccountBalance { ID := accountID2, Amount := amount2 }
    ((r1.1.1, r2.1.1, r2.1.2), r2.2)

/-- The closure passed to `execTx` by `TransferTx` (store.go:66-105); `result` is the
captured variable. -/
def transferFn (arg : CreateTransferParams) (result : TransferTxResult) (q : Queries) :
    (TransferTxResult × Option GoError) × Queries :=
  let r1 := q.CreateTransfer
    { FromAccountID := arg.FromAccountID, ToAccountID := arg.ToAccountID, Amount := arg.Amount }
  let result := { result with Transfer := r1.1.1 }
  match r1.1.2 with
  | some err => ((result, some err), r1.2)
  | none =>
    let r2 := r1.2.CreateEntry { AccountID := arg.FromAccountID, Amount := neg64 arg.Amount }
    let result := { result with FromEntry := r2.1.1 }
    match r2.1.2 with
    | some err => ((result, some err), r2.2)
    | none =>
      let r3 := r2.2.CreateEntry { AccountID := arg.ToAccountID, Amount := arg.Amount }
      let result := { result with ToEntry := r3.1.1 }
      match r3.1.2 with
      | some err => ((result, some err), r3.2)
      | none =>
        if arg.FromAccountID < arg.ToAccountID then
          let r4 := addMoney r3.2 arg.FromAccountID (neg64 arg.Amount) arg.ToAccountID arg.Amount
          (({ result with FromAccount := r4.1.1, ToAccount := r4.1.2.1 }, r4.1.2.2), r4.2)
        else
          let r4 := addMoney r3.2 arg.ToAccountID arg.Amount arg.FromAccountID (neg64 arg.Amount)
          (({ result with ToAccount := r4.1.1, FromAccount := r4.1.2.1 }, r4.1.2.2), r4.2)

/-- The method `SQLStore.TransferTx` (store.go:61-108). -/
def TransferTx (f : Faults) (db : Ledger) (arg : CreateTransferParams) : TxRun TransferTxResult :=
  execTx f db (transferFn arg) TransferTxResult.zero

/-! ## Auxiliary definitions used to state the lemmas -/

/-- The ledger that a committed `TransferTx` leaves behind, written out in one piece. -/
def Ledger.committed (l : Ledger) (arg : CreateTransferParams) : Ledger :=
  { accounts := l.accounts.map
      (fun x => bumpBalance arg.ToAccountID arg.Amount
        (bumpBalance arg.FromAccountID (neg64 arg.Amount) x)),
    entries := l.entries ++
      [l.newEntry { AccountID := arg.FromAccountID, Amount := neg64 arg.Amount },
       ({ l with entries := l.entries ++
            [l.newEntry { AccountID := arg.FromAccountID, Amount := neg64 arg.Amount }] }).newEntry
          { AccountID := arg.ToAccountID, Amount := arg.Amount }],
    transfers := l.transfers ++ [l.newTransfer arg],
    now := l.now }

/-- The statements a complete run of the closure of `TransferTx` issues, in order. -/
def stepEvents (arg : CreateTransferParams) : List Event :=
  [Event.createTransfer arg,
   Event.createEntry { AccountID := arg.FromAccountID, Amount := neg64 arg.Amount },
   Event.createEntry { AccountID := arg.ToAccountID, Amount := arg.Amount }] ++
  (if arg.FromAccountID < arg.ToAccountID then
    [Event.addBankAccountBalance { ID := arg.FromAccountID, Amount := neg64 arg.Amount },
     Event.addBankAccountBalance { ID := arg.ToAccountID, Amount := arg.Amount }]
  else
    [Event.addBankAccountBalance { ID := arg.ToAccountID, Amount := arg.Amount },
     Event.addBankAccountBalance { ID := arg.FromAccountID, Amount := neg64 arg.Amount }])

/-- The result a committed `TransferTx` returns, given the rows `accF` and `accT` stored
for the source and the destination before the call. -/
def committedResult (l : Ledger) (arg : CreateTransferParams) (accF accT : BankAccount) :
    TransferTxResult :=
  { FromAccount := bumpBalance arg.FromAccountID (neg64 arg.Amount)
      (bumpBalance arg.ToAccountID arg.Amount accF),
    ToAccount := bumpBalance arg.ToAccountID arg.Amount accT,
    Transfer := l.newTransfer arg,
    FromEntry := l.newEntry { AccountID := arg.FromAccountID, Amount := neg64 arg.Amount },
    ToEntry := ({ l with entries := l.entries ++
      [l.newEntry { AccountID := arg.FromAccountID, Amount := neg64 arg.Amount }] }).newEntry
        { AccountID := arg.ToAccountID, Amount := arg.Amount } }

/-- Neither balance increment of the transfer `arg` leaves the range of the `bigint`
column, `accF` and `accT` being the rows stored for the source and the destination before
the call (for a transfer from an account to itself the two increments follow one another
on the same row). -/
def balancesFit (arg : CreateTransferParams) (accF accT : BankAccount) : Prop :=
  isInt64 (accT.Balance + arg.Amount) ∧
    isInt64 ((bumpBalance arg.ToAccountID arg.Amount accF).Balance + neg64 arg.Amount)

instance (arg : CreateTransferParams) (accF accT : BankAccount) :
    Decidable (balancesFit arg accF accT) := by
  unfold balancesFit; infer_instance

/-- The environment lets the five statements of one `TransferTx` succeed. -/
def fiveOk (s : List (Option GoError)) : Prop :=
  nextFault s = none ∧ nextFault s.tail = none ∧ nextFault s.tail.tail = none ∧
    nextFault s.tail.tail.tail = none ∧ nextFault s.tail.tail.tail.tail = none

instance (s : List (Option GoError)) : Decidable (fiveOk s) := by
  unfold fiveOk; infer_instance

/-- The balance mutations recorded in a log, in the order issued. -/
def balanceMutations : List Event → List AddBankAccountBalanceParams
  | [] => []
  | Event.addBankAccountBalance p :: rest => p :: balanceMutations rest
  | _ :: rest => balanceMutations rest

/-- Concrete scenario 1 of §8: account 1 with balance 100 and account 2 with balance 50,
no entries and no transfers yet. -/
def scenario1 : Ledger :=
  { accounts := [BankAccount.mk 1 "alice" 100 "USD" 7, BankAccount.mk 2 "bob" 50 "USD" 8],
    entries := [], transfers := [], now := 9 }

/-- A finite sequence of `TransferTx` calls issued one after the other against the same
store, each in its own environment, as the callers in `store_test.go` do; `none` as soon
as one call returns an error. -/
def runTransfers (db : Ledger) : List (Faults × CreateTransferParams) → Option Ledger
  | [] => some db
  | c :: rest =>
    if (TransferTx c.1 db c.2).err = none then runTransfers (TransferTx c.1 db c.2).db rest
    else none

/-- The signed amount one transfer contributes to account `X`: `+amount` when `X` is the
destination, `-amount` when `X` is the source. -/
def signedAmount (X : Int) (arg : CreateTransferParams) : Int :=
  (if arg.ToAccountID = X then arg.Amount else 0) -
    (if arg.FromAccountID = X then arg.Amount else 0)

/-- Concrete scenario 2 of §8 (and `TestTransferTx`): five calls `TransferTx(1, 2, 10)`,
none of which meets a failure of the environment. -/
def scenario2Calls : List (Faults × CreateTransferParams) :=
  List.replicate 5 (Faults.none, { FromAccountID := 1, ToAccountID := 2, Amount := 10 })

/-- Double-entry conservation (invariant 2 of §3): the balance of every account row is the
sum of the amounts of the entries posted on it. -/
def Ledger.conserved (l : Ledger) : Prop :=
  ∀ acc ∈ l.accounts, acc.Balance = l.entrySum acc.ID

instance (l : Ledger) : Decidable l.conserved := by
  unfold Ledger.conserved; infer_instance

/-- Scenario 1 with its opening balances booked as entries, so that conservation holds. -/
def scenarioFunded : Ledger :=
  { accounts := [BankAccount.mk 1 "alice" 100 "USD" 7, BankAccount.mk 2 "bob" 50 "USD" 8],
    entries := [Entry.mk 1 1 100 7, Entry.mk 2 2 50 8], transfers := [], now := 9 }

/-! ## The handlers of `api/bank_account.go` -/

/-- Least value of a Go `int32`. -/
def minInt32 : Int := -2147483648

/-- Greatest value of a Go `int32`. -/
def maxInt32 : Int := 2147483647

/-- Membership in the range of `int32`. -/
def isInt32 (x : Int) : Prop := minInt32 ≤ x ∧ x ≤ maxInt32

instance (x : Int) : Decidable (isInt32 x) := by
  unfold isInt32; infer_instance

/-- Two's-complement reduction of an integer to the `int32` range. -/
def wrapInt32 (x : Int) : Int := (x + 2147483648) % 4294967296 - 2147483648

/-- Go subtraction on `int32`, with wrap-around. -/
def sub32 (x y : Int) : Int := wrapInt32 (x - y)

/-- Go multiplication on `int32`, with wrap-around. -/
def mul32 (x y : Int) : Int := wrapInt32 (x * y)

/-- The constant `http.StatusOK`. -/
def StatusOK : Nat := 200

/-- The constant `http.StatusBadRequest`. -/
def StatusBadRequest : Nat := 400

/-- The constant `http.StatusForbidden`. -/
def StatusForbidden : Nat := 403

/-- The constant `http.StatusNotFound`. -/
def StatusNotFound : Nat := 404

/-- The constant `http.StatusInternalServerError`. -/
def StatusInternalServerError : Nat := 500

/-- What a handler hands to `ctx.JSON` as the body. -/
inductive Body where
  | account (a : BankAccount)
  | accounts (l : List BankAccount)
  | error (msg : String)
deriving DecidableEq, Repr

/-- The response written by `ctx.JSON(code, body)`. -/
structure Response where
  code : Nat
  body : Body
deriving DecidableEq, Repr

/-- The function `errorResponse` (server.go:63-65): `gin.H{"error": err.Error()}`. -/
def errorResponse (err : GoError) : Body := Body.error err.msg

/-- Parameters of `ListBankAccounts` (as built in `listBankAccounts`); `Limit` and
`Offset` are `int32`. -/
structure ListBankAccountsParams where
  Owner : String
  Limit : Int
  Offset : Int
deriving DecidableEq, Repr

/-- The part of `db.Store` the two handlers call (an interface; a mock in the tests):
the answer of the store to each call. -/
structure Store where
  GetBankAccount : Int → BankAccount × Option GoError
  ListBankAccounts : ListBankAccountsParams → List BankAccount × Option GoError

/-- One run of a handler: the response it wrote and the calls it made to the store, in
order. -/
structure HandlerRun (α : Type) where
  resp : Response
  calls : List α

/-- The call `ctx.ShouldBindUri(&req)` for `getBankAccountRequest`, whose field `ID int64`
carries `binding:"required,min=1"`: the path parameter has to be an `int64`, `required`
refuses the zero value and `min=1` every value below 1. -/
def bindGetBankAccountRequest (id : Int) : Option GoError :=
  if ¬ isInt64 id then some (GoError.mk "strconv.ParseInt: value out of range")
  else if id = 0 then some (GoError.mk "Field validation for ID failed on the required tag")
  else if id < 1 then some (GoError.mk "Field validation for ID failed on the min tag")
  else none

/-- The handler `Server.getBankAccount` (bank_account.go:61-89) for a request whose
authorization payload names `username` and whose path parameter is `id`. -/
def getBankAccount (store : Store) (username : String) (id : Int) : HandlerRun Int :=
  match bindGetBankAccountRequest id with
  | some err => { resp := { code := StatusBadRequest, body := errorResponse err }, calls := [] }
  | none =>
    let r := store.GetBankAccount id
    match r.2 with
    | some err =>
      if err = ErrNoRows then
        { resp := { code := StatusNotFound, body := errorResponse err }, calls := [id] }
      else
        { resp := { code := StatusInternalServerError, body := errorResponse err },
          calls := [id] }
    | none =>
      if r.1.Owner ≠ username then
        { resp := { code := StatusForbidden,
                    body := errorResponse (GoError.mk "you are not the owner of this bank account") },
          calls := [id] }
      else { resp := { code := StatusOK, body := Body.account r.1 }, calls := [id] }

/-- The call `ctx.ShouldBindQuery(&req)` for `listBankAccountsRequest`: `PageID int32`
with `binding:"required,min=1"` and `PageSize int32` with `binding:"required,min=1,max=10"`;
both query parameters have to be `int32` values. -/
def bindListBankAccountsRequest (pageID pageSize : Int) : Option GoError :=
  if ¬ isInt32 pageID ∨ ¬ isInt32 pageSize then
    some (GoError.mk "strconv.ParseInt: value out of range")
  else if pageID = 0 ∨ pageID < 1 then
    some (GoError.mk "Field validation for PageID failed")
  else if pageSize = 0 ∨ pageSize < 1 ∨ 10 < pageSize then
    some (GoError.mk "Field validation for PageSize failed")
  else none

/-- The handler `Server.listBankAccounts` (bank_account.go:91-114) for a request whose
authorization payload names `username`; the offset is computed in `int32`. -/
def listBankAccounts (store : Store) (username : String) (pageID pageSize : Int) :
    HandlerRun ListBankAccountsParams :=
  match bindListBankAccountsRequest pageID pageSize with
  | some err => { resp := { code := StatusBadRequest, body := errorResponse err }, calls := [] }
  | none =>
    let bankAccountsArgs : ListBankAccountsParams :=
      { Owner := username, Limit := pageSize, Offset := mul32 (sub32 pageID 1) pageSize }
    let r := store.ListBankAccounts bankAccountsArgs
    match r.2 with
    | some err =>
      { resp := { code := StatusInternalServerError, body := errorResponse err },
        calls := [bankAccountsArgs] }
    | none => { resp := { code := StatusOK, body := Body.accounts r.1 }, calls := [bankAccountsArgs] }

/-- A store for the examples: it holds the two accounts of scenario 1 and answers
`sql.ErrNoRows` for every other identifier. -/
def exampleStore : Store :=
  { GetBankAccount := fun id =>
      match scenario1.getAccount id with
      | some a => (a, none)
      | none => (BankAccount.zero, some ErrNoRows),
    ListBankAccounts := fun arg =>
      (scenario1.accounts.filter (fun a => a.Owner == arg.Owner), none) }

/-! ## The JWT generator of `token/generator.go` -/

/-- The dynamic type of `token.Method` as far as `ValidateToken` looks at it: a
`*jwt.SigningMethodHMAC`, the method `none`, or any other method. -/
inductive SigningMethod where
  | hmac
  | noneAlg
  | other
deriving DecidableEq, Repr

/-- The error of `jwt.ParseWithClaims`: a `*jwt.ValidationError` with its `Inner` error,
or an error of another type. -/
inductive ParseError where
  | validation (inner : Option GoError)
  | other (err : GoError)
deriving DecidableEq, Repr

/-- The external call `jwt.ParseWithClaims(token, &Payload{}, keyFunc)`: from the token
string and the key function it gives either an error or the parsed token, of which
`ValidateToken` uses the claims (`some p` when their dynamic type is `*Payload`). The
payload type `P` is declared outside the source tree. -/
abbrev ParseWithClaims (P : Type) :=
  String → (SigningMethod → Except GoError String) → Except ParseError (Option P)

/-- The method `JWTGenerator.ValidateToken` (generator.go:41-65). The library call and the
two error values `ErrInvalidToken` and `ErrExpiredToken`, declared outside the source
tree, are parameters. -/
def JWTGenerator.ValidateToken {P : Type} (parse : ParseWithClaims P)
    (ErrInvalidToken ErrExpiredToken : GoError) (secretKey : String) (token : String) :
    Option P × Option GoError :=
  let keyFunc : SigningMethod → Except GoError String := fun m =>
    match m with
    | SigningMethod.hmac => Except.ok secretKey
    | _ => Except.error ErrInvalidToken
  match parse token keyFunc with
  | Except.error (ParseError.validation inner) =>
    if inner = some ErrExpiredToken then (none, some ErrExpiredToken)
    else (none, some ErrInvalidToken)
  | Except.error (ParseError.other _) => (none, some ErrInvalidToken)
  | Except.ok none => (none, some ErrInvalidToken)
  | Except.ok (some payload) => (some payload, none)

/-- What the library decodes from a token string: the signing method named in the header,
the claims, the error `Claims.Valid()` gives for them and the key the signature was made
with. -/
structure DecodedToken (P : Type) where
  method : SigningMethod
  claims : P
  claimsErr : Option GoError
  signedWith : String

/-- The steps of `jwt.ParseWithClaims` of the library golang-jwt, for a given decoding of
token strings: a malformed token is refused; the key function is asked for the key and
its error is handed back as the `Inner` of a `ValidationError`; then the claims are
validated and the signature is verified. -/
def jwtParseWithClaims {P : Type} (decode : String → Option (DecodedToken P)) :
    ParseWithClaims P := fun token keyFunc =>
  match decode token with
  | none => Except.error (ParseError.validation none)
  | some t =>
    match keyFunc t.method with
    | Except.error e => Except.error (ParseError.validation (some e))
    | Except.ok key =>
      if t.signedWith ≠ key then
        Except.error (ParseError.validation (some (GoError.mk "signature is invalid")))
      else
        match t.claimsErr with
        | some ce => Except.error (ParseError.validation (some ce))
        | none => Except.ok (some t.claims)

/-- A decoding for the examples: one token signed with method `none`, one expired token
and one good token signed with HMAC, both with the key `secret`; every other string is
malformed. The payload is the user name. -/
def exampleDecode : String → Option (DecodedToken String)
  | "none.token" => some { method := SigningMethod.noneAlg, claims := "alice",
                           claimsErr := none, signedWith := "" }
  | "expired.token" => some { method := SigningMethod.hmac, claims := "alice",
                              claimsErr := some (GoError.mk "token has expired"),
                              signedWith := "secret" }
  | "good.token" => some { method := SigningMethod.hmac, claims := "alice",
                           claimsErr := none, signedWith := "secret" }
  | _ => none

/-! ## Lemmas about the store operations -/

theorem neg64_eq_neg {x : Int} (h1 : minInt64 < x) (h2 : x ≤ maxInt64) : neg64 x = -x := by
  unfold neg64 wrapInt64
  unfold minInt64 at h1
  unfold maxInt64 at h2
  omega

@[simp] theorem bumpBalance_ID (id d : Int) (a : BankAccount) : (bumpBalance id d a).ID = a.ID := by
  unfold bumpBalance; split <;> rfl

theorem bumpBalance_comm (i j d e : Int) (a : BankAccount) :
    bumpBalance i d (bumpBalance j e a) = bumpBalance j e (bumpBalance i d a) := by
  rcases a with ⟨id, o, b, c, t⟩
  simp only [bumpBalance, beq_iff_eq]
  by_cases h1 : id = i <;> by_cases h2 : id = j
  · subst h1; subst h2; simp [add_right_comm]
  · subst h1; simp [h2]
  · subst h2; simp [h1]
  · simp [h1, h2]

theorem hasAccount_iff_getAccount (l : Ledger) (id : Int) :
    l.hasAccount id = true ↔ ∃ a, l.getAccount id = some a := by
  unfold Ledger.hasAccount Ledger.getAccount
  rw [← Option.isSome_iff_exists, List.find?_isSome, List.any_eq_true]

theorem getAccount_ID {l : Ledger} {id : Int} {a : BankAccount} (h : l.getAccount id = some a) :
    a.ID = id := by
  unfold Ledger.getAccount at h
  have := List.find?_some h
  simpa using this

theorem CreateTransfer_fault (q : Queries) (arg : CreateTransferParams) (e : GoError)
    (hf : nextFault q.script = some e) :
    q.CreateTransfer arg = ((Transfer.zero, some e), q.issue (Event.createTransfer arg)) := by
  simp [Queries.CreateTransfer, hf]

theorem CreateTransfer_ok (q : Queries) (arg : CreateTransferParams)
    (hf : nextFault q.script = none) (hA : q.ledger.hasAccount arg.FromAccountID = true)
    (hB : q.ledger.hasAccount arg.ToAccountID = true) :
    q.CreateTransfer arg =
      ((q.ledger.newTransfer arg, none),
        { ledger := { q.ledger with transfers := q.ledger.transfers ++ [q.ledger.newTransfer arg] },
          script := q.script.tail, log := q.log ++ [Event.createTransfer arg] }) := by
  simp [Queries.CreateTransfer, hf, hA, hB, Queries.issue]

theorem CreateTransfer_inv (q : Queries) (arg : CreateTransferParams)
    (h : (q.CreateTransfer arg).1.2 = none) :
    nextFault q.script = none ∧ q.ledger.hasAccount arg.FromAccountID = true ∧
      q.ledger.hasAccount arg.ToAccountID = true := by
  unfold Queries.CreateTransfer at h
  cases hf : nextFault q.script with
  | some e => simp [hf] at h
  | none =>
    by_cases hA : q.ledger.hasAccount arg.FromAccountID = true
    · by_cases hB : q.ledger.hasAccount arg.ToAccountID = true
      · exact ⟨rfl, hA, hB⟩
      · simp [hf, hA, hB] at h
    · simp [hf, hA] at h

theorem CreateEntry_fault (q : Queries) (arg : CreateEntryParams) (e : GoError)
    (hf : nextFault q.script = some e) :
    q.CreateEntry arg = ((Entry.zero, some e), q.issue (Event.createEntry arg)) := by
  simp [Queries.CreateEntry, hf]

theorem CreateEntry_ok (q : Queries) (arg : CreateEntryParams)
    (hf : nextFault q.script = none) (hA : q.ledger.hasAccount arg.AccountID = true) :
    q.CreateEntry arg =
      ((q.ledger.newEntry arg, none),
        { ledger := { q.ledger with entries := q.ledger.entries ++ [q.ledger.newEntry arg] },
          script := q.script.tail, log := q.log ++ [Event.createEntry arg] }) := by
  simp [Queries.CreateEntry, hf, hA, Queries.issue]

theorem CreateEntry_inv (q : Queries) (arg : CreateEntryParams)
    (h : (q.CreateEntry arg).1.2 = none) :
    nextFault q.script = none ∧ q.ledger.hasAccount arg.AccountID = true := by
  unfold Queries.CreateEntry at h
  cases hf : nextFault q.script with
  | some e => simp [hf] at h
  | none =>
    by_cases hA : q.ledger.hasAccount arg.AccountID = true
    · exact ⟨rfl, hA⟩
    · simp [hf, hA] at h

theorem AddBankAccountBalance_fault (q : Queries) (arg : AddBankAccountBalanceParams)
    (e : GoError) (hf : nextFault q.script = some e) :
    q.AddBankAccountBalance arg =
      ((BankAccount.zero, some e), q.issue (Event.addBankAccountBalance arg)) := by
  simp [Queries.AddBankAccountBalance, hf]

theorem AddBankAccountBalance_ok (q : Queries) (arg : AddBankAccountBalanceParams)
    (a : BankAccount) (hf : nextFault q.script = none) (hA : q.ledger.getAccount arg.ID = some a)
    (hr : isInt64 (a.Balance + arg.Amount)) :
    q.AddBankAccountBalance arg =
      ((bumpBalance arg.ID arg.Amount a, none),
        { ledger := { q.ledger with
            accounts := q.ledger.accounts.map (bumpBalance arg.ID arg.Amount) },
          script := q.script.tail, log := q.log ++ [Event.addBankAccountBalance arg] }) := by
  simp [Queries.AddBankAccountBalance, hf, hA, hr, Queries.issue]

theorem AddBankAccountBalance_inv (q : Queries) (arg : AddBankAccountBalanceParams)
    (h : (q.AddBankAccountBalance arg).1.2 = none) :
    nextFault q.script = none ∧ ∃ a, q.ledger.getAccount arg.ID = some a ∧
      isInt64 (a.Balance + arg.Amount) := by
  unfold Queries.AddBankAccountBalance at h
  cases hf : nextFault q.script with
  | some e => simp [hf] at h
  | none =>
    cases hA : q.ledger.getAccount arg.ID with
    | none => simp [hf, hA] at h
    | some a =>
      by_cases hr : isInt64 (a.Balance + arg.Amount)
      · exact ⟨rfl, a, rfl, hr⟩
      · simp [hf, hA, hr] at h


theorem bumpBalance_of_ne {id : Int} {a : BankAccount} (h : a.ID ≠ id) (d : Int) :
    bumpBalance id d a = a := by
  simp [bumpBalance, h]

theorem find_map_of_ID (accs : List BankAccount) (g : BankAccount → BankAccount)
    (hg : ∀ a, (g a).ID = a.ID) (id : Int) :
    (accs.map g).find? (fun a => a.ID == id) = (accs.find? (fun a => a.ID == id)).map g := by
  induction accs with
  | nil => rfl
  | cons a rest ih =>
    simp only [List.map_cons, List.find?_cons, hg]
    split
    · rfl
    · exact ih

theorem getAccount_map_bump (l : Ledger) (i d id : Int) (es : List Entry) (ts : List Transfer)
    (n : Int) :
    Ledger.getAccount
        { accounts := l.accounts.map (bumpBalance i d), entries := es, transfers := ts, now := n } id =
      (l.getAccount id).map (bumpBalance i d) := by
  unfold Ledger.getAccount
  exact find_map_of_ID _ _ (bumpBalance_ID i d) _

theorem addMoney_ok (q : Queries) (i1 d1 i2 d2 : Int) (a1 a2 : BankAccount)
    (h0 : nextFault q.script = none) (h1 : nextFault q.script.tail = none)
    (hA1 : q.ledger.getAccount i1 = some a1) (hA2 : q.ledger.getAccount i2 = some a2)
    (hr1 : isInt64 (a1.Balance + d1)) (hr2 : isInt64 ((bumpBalance i1 d1 a2).Balance + d2)) :
    addMoney q i1 d1 i2 d2 =
      ((bumpBalance i1 d1 a1, bumpBalance i2 d2 (bumpBalance i1 d1 a2), none),
        { ledger := { q.ledger with
            accounts := (q.ledger.accounts.map (bumpBalance i1 d1)).map (bumpBalance i2 d2) },
          script := q.script.tail.tail,
          log := q.log ++ [Event.addBankAccountBalance { ID := i1, Amount := d1 },
            Event.addBankAccountBalance { ID := i2, Amount := d2 }] }) := by
  unfold addMoney
  rw [AddBankAccountBalance_ok q _ a1 h0 hA1 hr1]
  simp only []
  have hA2b : Ledger.getAccount
      { q.ledger with accounts := q.ledger.accounts.map (bumpBalance i1 d1) } i2 =
      some (bumpBalance i1 d1 a2) := by
    rw [getAccount_map_bump, hA2]; rfl
  rw [AddBankAccountBalance_ok _ _ (bumpBalance i1 d1 a2) h1 hA2b hr2]
  simp

theorem transferFn_ok (arg : CreateTransferParams) (res : TransferTxResult) (q : Queries)
    (accF accT : BankAccount) (hs : fiveOk q.script)
    (hF : q.ledger.getAccount arg.FromAccountID = some accF)
    (hT : q.ledger.getAccount arg.ToAccountID = some accT)
    (hfit : balancesFit arg accF accT) :
    transferFn arg res q =
      ((committedResult q.ledger arg accF accT, none),
        { ledger := q.ledger.committed arg, script := q.script.tail.tail.tail.tail.tail,
          log := q.log ++ stepEvents arg }) := by
  obtain ⟨h0, h1, h2, h3, h4⟩ := hs
  have hA := (hasAccount_iff_getAccount _ _).2 ⟨_, hF⟩
  have hB := (hasAccount_iff_getAccount _ _).2 ⟨_, hT⟩
  have hFid := getAccount_ID hF
  have hTid := getAccount_ID hT
  unfold transferFn
  rw [CreateTransfer_ok q _ h0 hA hB]
  simp only []
  rw [CreateEntry_ok _ _ h1 hA]
  simp only []
  rw [CreateEntry_ok _ _ h2 hB]
  simp only []
  have hmap : List.map (bumpBalance arg.FromAccountID (neg64 arg.Amount))
      (List.map (bumpBalance arg.ToAccountID arg.Amount) q.ledger.accounts) =
      List.map (fun x => bumpBalance arg.ToAccountID arg.Amount
        (bumpBalance arg.FromAccountID (neg64 arg.Amount) x)) q.ledger.accounts := by
    rw [List.map_map]
    apply List.map_congr_left
    intro a _
    exact bumpBalance_comm _ _ _ _ a
  split
  · rename_i hlt
    have hne : accF.ID ≠ arg.ToAccountID := by rw [hFid]; exact ne_of_lt hlt
    have hne2 : accT.ID ≠ arg.FromAccountID := by rw [hTid]; exact ne_of_gt hlt
    have hr1 : isInt64 (accF.Balance + neg64 arg.Amount) := by
      have := hfit.2
      rwa [bumpBalance_of_ne hne] at this
    have hr2 : isInt64 ((bumpBalance arg.FromAccountID (neg64 arg.Amount) accT).Balance
        + arg.Amount) := by
      rw [bumpBalance_of_ne hne2]; exact hfit.1
    rw [addMoney_ok _ _ _ _ _ accF accT h3 h4 (by exact hF) (by exact hT) hr1 hr2]
    rw [bumpBalance_of_ne hne2]
    simp [Ledger.committed, committedResult, stepEvents, hlt, Ledger.newEntry,
      bumpBalance_of_ne hne]
  · rename_i hlt
    rw [addMoney_ok _ _ _ _ _ accT accF h3 h4 (by exact hT) (by exact hF) hfit.1 hfit.2]
    simp only [hmap]
    simp [Ledger.committed, committedResult, stepEvents, hlt, Ledger.newEntry]

theorem addMoney_inv (q : Queries) (i1 d1 i2 d2 : Int)
    (h : (addMoney q i1 d1 i2 d2).1.2.2 = none) :
    nextFault q.script = none ∧ nextFault q.script.tail = none ∧
      ∃ a1 a2, q.ledger.getAccount i1 = some a1 ∧ q.ledger.getAccount i2 = some a2 ∧
        isInt64 (a1.Balance + d1) ∧ isInt64 ((bumpBalance i1 d1 a2).Balance + d2) := by
  unfold addMoney at h
  simp only [] at h
  split at h
  · simp at h
  · rename_i hc1
    obtain ⟨h0, a1, hA1, hr1⟩ := AddBankAccountBalance_inv _ _ hc1
    rw [AddBankAccountBalance_ok q _ a1 h0 hA1 hr1] at h
    simp only [] at h
    obtain ⟨h1, a2, hA2, hr2⟩ := AddBankAccountBalance_inv _ _ h
    rw [getAccount_map_bump] at hA2
    cases hg : q.ledger.getAccount i2 with
    | none => simp [hg] at hA2
    | some a =>
      rw [hg] at hA2
      simp only [Option.map_some', Option.some.injEq] at hA2
      subst hA2
      exact ⟨h0, h1, a1, a, hA1, rfl, hr1, hr2⟩

theorem transferFn_inv (arg : CreateTransferParams) (res : TransferTxResult) (q : Queries)
    (h : (transferFn arg res q).1.2 = none) :
    fiveOk q.script ∧
      ∃ accF accT, q.ledger.getAccount arg.FromAccountID = some accF ∧
        q.ledger.getAccount arg.ToAccountID = some accT ∧ balancesFit arg accF accT := by
  unfold transferFn at h
  simp only [] at h
  split at h
  · simp at h
  · rename_i hc1
    obtain ⟨h0, hA, hB⟩ := CreateTransfer_inv _ _ hc1
    rw [CreateTransfer_ok q _ h0 hA hB] at h
    simp only [] at h
    split at h
    · simp at h
    · rename_i hc2
      obtain ⟨h1, -⟩ := CreateEntry_inv _ _ hc2
      rw [CreateEntry_ok _ _ h1 (by exact hA)] at h
      simp only [] at h
      split at h
      · simp at h
      · rename_i hc3
        obtain ⟨h2, -⟩ := CreateEntry_inv _ _ hc3
        rw [CreateEntry_ok _ _ h2 (by exact hB)] at h
        simp only [] at h
        split at h
        · rename_i hlt
          obtain ⟨h3, h4, accF, accT, hF, hT, hr1, hr2⟩ := addMoney_inv _ _ _ _ _ h
          have hFid := getAccount_ID hF
          have hTid := getAccount_ID hT
          have hne : accF.ID ≠ arg.ToAccountID := by rw [hFid]; exact ne_of_lt hlt
          have hne2 : accT.ID ≠ arg.FromAccountID := by rw [hTid]; exact ne_of_gt hlt
          rw [bumpBalance_of_ne hne2] at hr2
          refine ⟨⟨h0, h1, h2, h3, h4⟩, accF, accT, hF, hT, hr2, ?_⟩
          rw [bumpBalance_of_ne hne]
          exact hr1
        · obtain ⟨h3, h4, accT, accF, hT, hF, hr1, hr2⟩ := addMoney_inv _ _ _ _ _ h
          exact ⟨⟨h0, h1, h2, h3, h4⟩, accF, accT, hF, hT, hr1, hr2⟩


/-! ## Lemmas about `execTx` and `TransferTx` -/

theorem fiveOk_of_stmtsOk {f : Faults} (h : f.stmtsOk) : fiveOk f.stmts := by
  have key : ∀ s : List (Option GoError), (∀ o ∈ s, o = none) →
      nextFault s = none ∧ ∀ o ∈ s.tail, o = none := by
    intro s hs
    cases s with
    | nil => exact ⟨rfl, by simp⟩
    | cons o rest =>
      refine ⟨hs o (List.mem_cons_self _ _), fun x hx => hs x (List.mem_cons_of_mem _ hx)⟩
  obtain ⟨h0, t0⟩ := key _ h
  obtain ⟨h1, t1⟩ := key _ t0
  obtain ⟨h2, t2⟩ := key _ t1
  obtain ⟨h3, t3⟩ := key _ t2
  obtain ⟨h4, -⟩ := key _ t3
  exact ⟨h0, h1, h2, h3, h4⟩

theorem TransferTx_ok (f : Faults) (db : Ledger) (arg : CreateTransferParams)
    (accF accT : BankAccount) (hb : f.beginTx = none) (hs : fiveOk f.stmts)
    (hc : f.commit = none)
    (hF : db.getAccount arg.FromAccountID = some accF)
    (hT : db.getAccount arg.ToAccountID = some accT)
    (hfit : balancesFit arg accF accT) :
    TransferTx f db arg =
      { out := committedResult db arg accF accT, err := none, db := db.committed arg,
        log := Event.beginTx :: stepEvents arg ++ [Event.commit] } := by
  unfold TransferTx execTx BeginTx
  simp only [hb]
  rw [transferFn_ok arg _ (New _) accF accT (by exact hs) (by exact hF) (by exact hT) hfit]
  simp [Tx.Commit, hc, New]

theorem TransferTx_inv (f : Faults) (db : Ledger) (arg : CreateTransferParams)
    (h : (TransferTx f db arg).err = none) :
    f.beginTx = none ∧ fiveOk f.stmts ∧ f.commit = none ∧
      ∃ accF accT, db.getAccount arg.FromAccountID = some accF ∧
        db.getAccount arg.ToAccountID = some accT ∧ balancesFit arg accF accT := by
  unfold TransferTx execTx BeginTx at h
  cases hb : f.beginTx with
  | some e => simp [hb] at h
  | none =>
    simp only [hb] at h
    split at h
    · split at h <;> simp at h
    · rename_i hfn
      obtain ⟨hs, hex⟩ := transferFn_inv _ _ _ hfn
      refine ⟨rfl, hs, ?_, hex⟩
      cases hc : f.commit with
      | some e => simp [Tx.Commit, hc] at h
      | none => rfl

theorem committed_getAccount (l : Ledger) (arg : CreateTransferParams) (id : Int) :
    (l.committed arg).getAccount id =
      (l.getAccount id).map (fun x => bumpBalance arg.ToAccountID arg.Amount
        (bumpBalance arg.FromAccountID (neg64 arg.Amount) x)) := by
  unfold Ledger.getAccount Ledger.committed
  exact find_map_of_ID _ _ (by intro a; simp) _

theorem bumpBalance_Balance (id d : Int) (a : BankAccount) :
    (bumpBalance id d a).Balance = a.Balance + (if a.ID = id then d else 0) := by
  unfold bumpBalance
  by_cases h : a.ID = id <;> simp [h]

theorem committed_balance (l : Ledger) (arg : CreateTransferParams) (id : Int) :
    (l.committed arg).balance id =
      (l.balance id).map (fun b => b + (if id = arg.FromAccountID then neg64 arg.Amount else 0)
        + (if id = arg.ToAccountID then arg.Amount else 0)) := by
  unfold Ledger.balance
  rw [committed_getAccount]
  cases hg : l.getAccount id with
  | none => rfl
  | some acc =>
    have hid := getAccount_ID hg
    simp [bumpBalance_Balance, hid]

theorem CreateTransfer_log (q : Queries) (arg : CreateTransferParams) :
    (q.CreateTransfer arg).2.log = q.log ++ [Event.createTransfer arg] := by
  unfold Queries.CreateTransfer
  simp only []
  split
  · rfl
  · split <;> rfl

theorem CreateEntry_log (q : Queries) (arg : CreateEntryParams) :
    (q.CreateEntry arg).2.log = q.log ++ [Event.createEntry arg] := by
  unfold Queries.CreateEntry
  simp only []
  split
  · rfl
  · split <;> rfl

theorem AddBankAccountBalance_log (q : Queries) (arg : AddBankAccountBalanceParams) :
    (q.AddBankAccountBalance arg).2.log = q.log ++ [Event.addBankAccountBalance arg] := by
  unfold Queries.AddBankAccountBalance
  simp only []
  split
  · rfl
  · split
    · rfl
    · split <;> rfl

theorem addMoney_log (q : Queries) (i1 d1 i2 d2 : Int) :
    ∃ k, 1 ≤ k ∧ k ≤ 2 ∧ (addMoney q i1 d1 i2 d2).2.log =
      q.log ++ ([Event.addBankAccountBalance { ID := i1, Amount := d1 },
        Event.addBankAccountBalance { ID := i2, Amount := d2 }]).take k := by
  unfold addMoney
  simp only []
  split
  · exact ⟨1, le_refl _, by omega, by simp [AddBankAccountBalance_log]⟩
  · exact ⟨2, by omega, le_refl _, by simp [AddBankAccountBalance_log]⟩

theorem transferFn_log (arg : CreateTransferParams) (res : TransferTxResult) (q : Queries) :
    ∃ k, 1 ≤ k ∧ k ≤ 5 ∧ (transferFn arg res q).2.log = q.log ++ (stepEvents arg).take k := by
  unfold transferFn
  simp only []
  split
  · exact ⟨1, le_refl _, by omega, by simp [CreateTransfer_log, stepEvents]⟩
  · split
    · exact ⟨2, by omega, by omega, by simp [CreateTransfer_log, CreateEntry_log, stepEvents]⟩
    · split
      · exact ⟨3, by omega, by omega,
          by simp [CreateTransfer_log, CreateEntry_log, stepEvents]⟩
      · split
        · rename_i hlt
          obtain ⟨k, hk1, hk2, hk⟩ := addMoney_log
            (((q.CreateTransfer arg).2.CreateEntry
              { AccountID := arg.FromAccountID, Amount := neg64 arg.Amount }).2.CreateEntry
              { AccountID := arg.ToAccountID, Amount := arg.Amount }).2
            arg.FromAccountID (neg64 arg.Amount) arg.ToAccountID arg.Amount
          refine ⟨3 + k, by omega, by omega, ?_⟩
          simp only []
          rw [hk]
          interval_cases k <;>
            simp [CreateTransfer_log, CreateEntry_log, stepEvents, hlt]
        · rename_i hlt
          obtain ⟨k, hk1, hk2, hk⟩ := addMoney_log
            (((q.CreateTransfer arg).2.CreateEntry
              { AccountID := arg.FromAccountID, Amount := neg64 arg.Amount }).2.CreateEntry
              { AccountID := arg.ToAccountID, Amount := arg.Amount }).2
            arg.ToAccountID arg.Amount arg.FromAccountID (neg64 arg.Amount)
          refine ⟨3 + k, by omega, by omega, ?_⟩
          simp only []
          rw [hk]
          interval_cases k <;>
            simp [CreateTransfer_log, CreateEntry_log, stepEvents, hlt]

theorem commit_not_mem_stepEvents (arg : CreateTransferParams) (k : Nat) :
    Event.commit ∉ (stepEvents arg).take k := by
  intro h
  have h2 := List.mem_of_mem_take h
  unfold stepEvents at h2
  split at h2 <;> simp at h2

theorem TransferTx_rollback_run (f : Faults) (db : Ledger) (arg : CreateTransferParams)
    (e : GoError) (hb : f.beginTx = none)
    (hstep : (transferFn arg TransferTxResult.zero (New { base := db, faults := f })).1.2 = some e) :
    (TransferTx f db arg).db = db ∧
    (TransferTx f db arg).out =
      (transferFn arg TransferTxResult.zero (New { base := db, faults := f })).1.1 ∧
    (TransferTx f db arg).log =
      (transferFn arg TransferTxResult.zero (New { base := db, faults := f })).2.log
        ++ [Event.rollback] ∧
    (TransferTx f db arg).err =
      some (match f.rollback with
        | some rbErr => rollbackFailure e rbErr
        | none => e) := by
  unfold TransferTx execTx BeginTx
  simp only [hb, hstep, Tx.Rollback]
  cases f.rollback <;> simp

theorem balanceMutations_append (l1 l2 : List Event) :
    balanceMutations (l1 ++ l2) = balanceMutations l1 ++ balanceMutations l2 := by
  induction l1 with
  | nil => rfl
  | cons ev rest ih =>
    cases ev <;> simp [balanceMutations, ih]

theorem TransferTx_log (f : Faults) (db : Ledger) (arg : CreateTransferParams) :
    ∃ k tl, k ≤ 5 ∧ (tl = [] ∨ tl = [Event.rollback] ∨ tl = [Event.commit]) ∧
      (TransferTx f db arg).log = Event.beginTx :: (stepEvents arg).take k ++ tl := by
  obtain ⟨k, -, hk5, hk⟩ :=
    transferFn_log arg TransferTxResult.zero (New { base := db, faults := f })
  simp only [New] at hk
  unfold TransferTx execTx BeginTx
  cases hb : f.beginTx with
  | some e => exact ⟨0, [], by omega, Or.inl rfl, by simp⟩
  | none =>
    simp only []
    split
    · refine ⟨k, [Event.rollback], hk5, Or.inr (Or.inl rfl), ?_⟩
      split <;> simp [hk, New]
    · exact ⟨k, [Event.commit], hk5, Or.inr (Or.inr rfl), by simp [hk, New]⟩

theorem TransferTx_mutations (f : Faults) (db : Ledger) (arg : CreateTransferParams) :
    ∃ k, k ≤ 5 ∧ balanceMutations (TransferTx f db arg).log =
      balanceMutations ((stepEvents arg).take k) := by
  obtain ⟨k, tl, hk5, htl, hlog⟩ := TransferTx_log f db arg
  refine ⟨k, hk5, ?_⟩
  rw [hlog]
  rcases htl with h | h | h <;> subst h <;>
    simp [balanceMutations, balanceMutations_append]

theorem mutations_stepEvents (arg : CreateTransferParams) :
    (balanceMutations (stepEvents arg)).map (fun p => p.ID) =
      [min arg.FromAccountID arg.ToAccountID, max arg.FromAccountID arg.ToAccountID] := by
  unfold stepEvents
  split
  · rename_i hlt
    simp [balanceMutations, min_eq_left (le_of_lt hlt), max_eq_right (le_of_lt hlt)]
  · rename_i hlt
    simp [balanceMutations, min_eq_right (not_lt.mp hlt), max_eq_left (not_lt.mp hlt)]

theorem mutations_take_stepEvents (arg : CreateTransferParams) (k : Nat) (hk : k ≤ 5) :
    (balanceMutations ((stepEvents arg).take k)).map (fun p => p.ID) <+:
      [min arg.FromAccountID arg.ToAccountID, max arg.FromAccountID arg.ToAccountID] := by
  rw [← mutations_stepEvents]
  unfold stepEvents
  split <;> interval_cases k <;> simp [balanceMutations]

theorem TransferTx_success_log (f : Faults) (db : Ledger) (arg : CreateTransferParams)
    (h : (TransferTx f db arg).err = none) :
    (TransferTx f db arg).log = Event.beginTx :: stepEvents arg ++ [Event.commit] := by
  obtain ⟨hb, hs, hc, accF, accT, hF, hT, hfit⟩ := TransferTx_inv f db arg h
  rw [TransferTx_ok f db arg accF accT hb hs hc hF hT hfit]

theorem TransferTx_mutation_order (f : Faults) (db : Ledger) (arg : CreateTransferParams) :
    (balanceMutations (TransferTx f db arg).log).map (fun p => p.ID) <+:
        [min arg.FromAccountID arg.ToAccountID, max arg.FromAccountID arg.ToAccountID] ∧
    ((TransferTx f db arg).err = none →
      (balanceMutations (TransferTx f db arg).log).map (fun p => p.ID) =
        [min arg.FromAccountID arg.ToAccountID, max arg.FromAccountID arg.ToAccountID]) := by
  constructor
  · obtain ⟨k, hk5, hk⟩ := TransferTx_mutations f db arg
    rw [hk]
    exact mutations_take_stepEvents arg k hk5
  · intro h
    rw [TransferTx_success_log f db arg h, ← mutations_stepEvents]
    simp [balanceMutations, balanceMutations_append]

theorem TransferTx_success_db (f : Faults) (db : Ledger) (arg : CreateTransferParams)
    (h : (TransferTx f db arg).err = none) :
    (TransferTx f db arg).db = db.committed arg := by
  obtain ⟨hb, hs, hc, accF, accT, hF, hT, hfit⟩ := TransferTx_inv f db arg h
  rw [TransferTx_ok f db arg accF accT hb hs hc hF hT hfit]

theorem TransferTx_step_balance (f : Faults) (db : Ledger) (arg : CreateTransferParams)
    (id b : Int) (hpos : 0 < arg.Amount) (h64 : arg.Amount ≤ maxInt64)
    (hok : (TransferTx f db arg).err = none) (hb : db.balance id = some b) :
    (TransferTx f db arg).db.balance id = some (b + signedAmount id arg) := by
  have hneg : neg64 arg.Amount = -arg.Amount :=
    neg64_eq_neg (by unfold minInt64; omega) h64
  rw [TransferTx_success_db f db arg hok, committed_balance, hb, hneg]
  simp only [Option.map_some', signedAmount, Option.some.injEq]
  by_cases h1 : id = arg.FromAccountID <;> by_cases h2 : id = arg.ToAccountID <;>
    simp [h1, h2, eq_comm] <;> omega

theorem runTransfers_balance (calls : List (Faults × CreateTransferParams)) :
    ∀ (db db2 : Ledger) (id b : Int),
      (∀ c ∈ calls, 0 < c.2.Amount ∧ c.2.Amount ≤ maxInt64) →
      db.balance id = some b → runTransfers db calls = some db2 →
      db2.balance id = some (b + (calls.map (fun c => signedAmount id c.2)).sum) := by
  induction calls with
  | nil =>
    intro db db2 id b _ hb hrun
    simp only [runTransfers, Option.some.injEq] at hrun
    subst hrun
    simpa using hb
  | cons c rest ih =>
    intro db db2 id b hpos hb hrun
    unfold runTransfers at hrun
    split at hrun
    · rename_i hok
      have hc := hpos c (List.mem_cons_self _ _)
      have hstep := TransferTx_step_balance c.1 db c.2 id b hc.1 hc.2 hok hb
      have := ih _ db2 id _ (fun x hx => hpos x (List.mem_cons_of_mem _ hx)) hstep hrun
      rw [this]
      simp only [List.map_cons, List.sum_cons, Option.some.injEq]
      omega
    · cases hrun

theorem sum_map_const {α : Type} (l : List α) (g : α → Int) (v : Int)
    (h : ∀ x ∈ l, g x = v) : (l.map g).sum = l.length * v := by
  induction l with
  | nil => simp
  | cons x rest ih =>
    have hx := h x (List.mem_cons_self _ _)
    have hr := ih (fun y hy => h y (List.mem_cons_of_mem _ hy))
    simp only [List.map_cons, List.sum_cons, List.length_cons, hx, hr]
    push_cast
    ring

theorem sum_signed_balanced (A B a : Int) (hAB : A ≠ B)
    (calls : List (Faults × CreateTransferParams))
    (hdir : ∀ c ∈ calls, (c.2.FromAccountID = A ∧ c.2.ToAccountID = B) ∨
      (c.2.FromAccountID = B ∧ c.2.ToAccountID = A))
    (hamt : ∀ c ∈ calls, c.2.Amount = a) :
    (calls.map (fun c => signedAmount A c.2)).sum =
      a * (calls.countP (fun c => decide (c.2.FromAccountID = B)))
        - a * (calls.countP (fun c => decide (c.2.FromAccountID = A))) ∧
    (calls.map (fun c => signedAmount B c.2)).sum =
      a * (calls.countP (fun c => decide (c.2.FromAccountID = A)))
        - a * (calls.countP (fun c => decide (c.2.FromAccountID = B))) := by
  induction calls with
  | nil => simp
  | cons c rest ih =>
    obtain ⟨ihA, ihB⟩ := ih (fun y hy => hdir y (List.mem_cons_of_mem _ hy))
      (fun y hy => hamt y (List.mem_cons_of_mem _ hy))
    have hc := hamt c (List.mem_cons_self _ _)
    have hBA : B ≠ A := Ne.symm hAB
    rcases hdir c (List.mem_cons_self _ _) with ⟨h1, h2⟩ | ⟨h1, h2⟩
    · have hsA : signedAmount A c.2 = -a := by simp [signedAmount, h1, h2, hc, hBA]
      have hsB : signedAmount B c.2 = a := by simp [signedAmount, h1, h2, hc, hAB]
      simp only [List.map_cons, List.sum_cons, ihA, ihB, List.countP_cons, hsA, hsB, h1,
        hAB, if_true, if_false, decide_True, decide_False]
      constructor <;> push_cast <;> ring
    · have hsA : signedAmount A c.2 = a := by simp [signedAmount, h1, h2, hc, hBA]
      have hsB : signedAmount B c.2 = -a := by simp [signedAmount, h1, h2, hc, hAB]
      simp only [List.map_cons, List.sum_cons, ihA, ihB, List.countP_cons, hsA, hsB, h1,
        hBA, if_true, if_false, decide_True, decide_False]
      constructor <;> push_cast <;> ring

theorem committed_entrySum (l : Ledger) (arg : CreateTransferParams) (id : Int) :
    (l.committed arg).entrySum id =
      l.entrySum id + (if id = arg.FromAccountID then neg64 arg.Amount else 0)
        + (if id = arg.ToAccountID then arg.Amount else 0) := by
  unfold Ledger.entrySum Ledger.committed Ledger.newEntry
  by_cases h1 : id = arg.FromAccountID
  · by_cases h2 : id = arg.ToAccountID
    · have e1 : arg.FromAccountID = id := h1.symm
      have e2 : arg.ToAccountID = id := h2.symm
      simp only [List.filter_append, List.filter_cons, e1, e2, beq_self_eq_true, if_true,
        List.filter_nil, List.map_append, List.map_cons, List.map_nil, List.sum_append,
        List.sum_cons, List.sum_nil]
      ring
    · have e1 : arg.FromAccountID = id := h1.symm
      have e2 : ¬ arg.ToAccountID = id := fun h => h2 h.symm
      simp only [List.filter_append, List.filter_cons, e1, e2, h2, beq_self_eq_true, if_true,
        if_false, beq_iff_eq, List.filter_nil, List.map_append, List.map_cons, List.map_nil,
        List.sum_append, List.sum_cons, List.sum_nil]
      ring
  · by_cases h2 : id = arg.ToAccountID
    · have e1 : ¬ arg.FromAccountID = id := fun h => h1 h.symm
      have e2 : arg.ToAccountID = id := h2.symm
      simp only [List.filter_append, List.filter_cons, e1, e2, h1, beq_self_eq_true, if_true,
        if_false, beq_iff_eq, List.filter_nil, List.map_append, List.map_cons, List.map_nil,
        List.sum_append, List.sum_cons, List.sum_nil]
      ring
    · have e1 : ¬ arg.FromAccountID = id := fun h => h1 h.symm
      have e2 : ¬ arg.ToAccountID = id := fun h => h2 h.symm
      simp only [List.filter_append, List.filter_cons, e1, e2, h1, h2, if_false, beq_iff_eq,
        List.filter_nil, List.map_append, List.map_nil, List.sum_append, List.sum_nil]
      ring

theorem committed_conserved (l : Ledger) (arg : CreateTransferParams) (h : l.conserved) :
    (l.committed arg).conserved := by
  intro acc hacc
  rw [committed_entrySum]
  simp only [Ledger.committed, List.mem_map] at hacc
  obtain ⟨old, hold, rfl⟩ := hacc
  have hbal := h old hold
  simp only [bumpBalance_Balance, bumpBalance_ID, hbal]

theorem rollback_not_mem_stepEvents (arg : CreateTransferParams) (k : Nat) :
    Event.rollback ∉ (stepEvents arg).take k := by
  intro h
  have h2 := List.mem_of_mem_take h
  unfold stepEvents at h2
  split at h2 <;> simp at h2

theorem TransferTx_db_of_rollback (f : Faults) (db : Ledger) (arg : CreateTransferParams)
    (h : Event.rollback ∈ (TransferTx f db arg).log) : (TransferTx f db arg).db = db := by
  cases hb : f.beginTx with
  | some e =>
    unfold TransferTx execTx BeginTx
    simp [hb]
  | none =>
    cases hfn : (transferFn arg TransferTxResult.zero (New { base := db, faults := f })).1.2 with
    | some e => exact (TransferTx_rollback_run f db arg e hb hfn).1
    | none =>
      exfalso
      obtain ⟨k, -, -, hk⟩ :=
        transferFn_log arg TransferTxResult.zero (New { base := db, faults := f })
      have hnot := rollback_not_mem_stepEvents arg k
      have hlog : (TransferTx f db arg).log =
          (transferFn arg TransferTxResult.zero (New { base := db, faults := f })).2.log
            ++ [Event.commit] := by
        unfold TransferTx execTx BeginTx
        simp only [hb, hfn]
      rw [hlog, hk] at h
      simp [hnot, New] at h

@[simp] theorem bumpBalance_Owner (id d : Int) (a : BankAccount) :
    (bumpBalance id d a).Owner = a.Owner := by
  unfold bumpBalance; split <;> rfl

@[simp] theorem bumpBalance_Currency (id d : Int) (a : BankAccount) :
    (bumpBalance id d a).Currency = a.Currency := by
  unfold bumpBalance; split <;> rfl

@[simp] theorem bumpBalance_CreatedAt (id d : Int) (a : BankAccount) :
    (bumpBalance id d a).CreatedAt = a.CreatedAt := by
  unfold bumpBalance; split <;> rfl

theorem addMoney_fault (q : Queries) (i1 d1 i2 d2 : Int) (e : GoError) (a1 a2 : BankAccount)
    (k : Nat) (rest : List (Option GoError)) (hk : k < 2)
    (hs : q.script = List.replicate k none ++ some e :: rest)
    (hA1 : q.ledger.getAccount i1 = some a1) (hA2 : q.ledger.getAccount i2 = some a2)
    (hr1 : isInt64 (a1.Balance + d1)) :
    (addMoney q i1 d1 i2 d2).1.2.2 = some e ∧
    (addMoney q i1 d1 i2 d2).2.log =
      q.log ++ ([Event.addBankAccountBalance { ID := i1, Amount := d1 },
        Event.addBankAccountBalance { ID := i2, Amount := d2 }]).take (k + 1) := by
  unfold addMoney
  interval_cases k
  · have h0 : nextFault q.script = some e := by rw [hs]; rfl
    rw [AddBankAccountBalance_fault q _ e h0]
    simp [Queries.issue]
  · have h0 : nextFault q.script = none := by rw [hs]; rfl
    have h1 : nextFault q.script.tail = some e := by rw [hs]; rfl
    rw [AddBankAccountBalance_ok q _ a1 h0 hA1 hr1]
    simp only []
    have hA2b : Ledger.getAccount
        { q.ledger with accounts := q.ledger.accounts.map (bumpBalance i1 d1) } i2 =
        some (bumpBalance i1 d1 a2) := by
      rw [getAccount_map_bump, hA2]; rfl
    rw [AddBankAccountBalance_fault _ _ e (by exact h1)]
    simp [Queries.issue]

theorem transferFn_fault (arg : CreateTransferParams) (res : TransferTxResult) (q : Queries)
    (e : GoError) (accF accT : BankAccount) (k : Nat) (rest : List (Option GoError))
    (hk : k < 5) (hs : q.script = List.replicate k none ++ some e :: rest)
    (hF : q.ledger.getAccount arg.FromAccountID = some accF)
    (hT : q.ledger.getAccount arg.ToAccountID = some accT)
    (hfit : balancesFit arg accF accT) :
    (transferFn arg res q).1.2 = some e ∧
    (transferFn arg res q).2.log = q.log ++ (stepEvents arg).take (k + 1) := by
  have hA := (hasAccount_iff_getAccount _ _).2 ⟨_, hF⟩
  have hB := (hasAccount_iff_getAccount _ _).2 ⟨_, hT⟩
  unfold transferFn
  by_cases hk0 : k = 0
  · subst hk0
    have h0 : nextFault q.script = some e := by rw [hs]; rfl
    rw [CreateTransfer_fault q _ e h0]
    simp [Queries.issue, stepEvents]
  have h0 : nextFault q.script = none := by
    rw [hs]; obtain ⟨j, rfl⟩ := Nat.exists_eq_succ_of_ne_zero hk0; rfl
  rw [CreateTransfer_ok q _ h0 hA hB]
  simp only []
  by_cases hk1 : k = 1
  · subst hk1
    have h1 : nextFault q.script.tail = some e := by rw [hs]; rfl
    rw [CreateEntry_fault _ _ e (by exact h1)]
    simp [Queries.issue, stepEvents]
  have h1 : nextFault q.script.tail = none := by
    rw [hs]; interval_cases k <;> first | rfl | omega
  rw [CreateEntry_ok _ _ h1 (by exact hA)]
  simp only []
  by_cases hk2 : k = 2
  · subst hk2
    have h2 : nextFault q.script.tail.tail = some e := by rw [hs]; rfl
    rw [CreateEntry_fault _ _ e (by exact h2)]
    simp [Queries.issue, stepEvents]
  have h2 : nextFault q.script.tail.tail = none := by
    rw [hs]; interval_cases k <;> first | rfl | omega
  rw [CreateEntry_ok _ _ h2 (by exact hB)]
  simp only []
  have hs3 : q.script.tail.tail.tail = List.replicate (k - 3) none ++ some e :: rest := by
    rw [hs]; interval_cases k <;> first | rfl | omega
  split
  · rename_i hlt
    simp only []
    have hr1 : isInt64 (accF.Balance + neg64 arg.Amount) := by
      have h := hfit.2
      rwa [bumpBalance_of_ne (by rw [getAccount_ID hF]; exact ne_of_lt hlt)] at h
    rw [(addMoney_fault _ arg.FromAccountID (neg64 arg.Amount) arg.ToAccountID
      arg.Amount e accF accT (k - 3) rest (by omega) (by exact hs3) (by exact hF)
      (by exact hT) hr1).1,
      (addMoney_fault _ arg.FromAccountID (neg64 arg.Amount) arg.ToAccountID
      arg.Amount e accF accT (k - 3) rest (by omega) (by exact hs3) (by exact hF)
      (by exact hT) hr1).2]
    refine ⟨rfl, ?_⟩
    interval_cases k <;> first | omega | simp [stepEvents, hlt]
  · rename_i hlt
    simp only []
    rw [(addMoney_fault _ arg.ToAccountID arg.Amount arg.FromAccountID
      (neg64 arg.Amount) e accT accF (k - 3) rest (by omega) (by exact hs3) (by exact hT)
      (by exact hF) hfit.1).1,
      (addMoney_fault _ arg.ToAccountID arg.Amount arg.FromAccountID
      (neg64 arg.Amount) e accT accF (k - 3) rest (by omega) (by exact hs3) (by exact hT)
      (by exact hF) hfit.1).2]
    refine ⟨rfl, ?_⟩
    interval_cases k <;> first | omega | simp [stepEvents, hlt]

theorem rollbackFailure_length (e r : GoError) :
    (rollbackFailure e r).msg.length = 8 + e.msg.length + 10 + r.msg.length := by
  simp only [rollbackFailure, String.length_append]
  rfl

theorem rollbackFailure_ne_left (e r : GoError) : rollbackFailure e r ≠ e := by
  intro h
  have h2 := congrArg (fun x => x.msg.length) h
  simp only [rollbackFailure_length] at h2
  omega

theorem rollbackFailure_ne_right (e r : GoError) : rollbackFailure e r ≠ r := by
  intro h
  have h2 := congrArg (fun x => x.msg.length) h
  simp only [rollbackFailure_length] at h2
  omega

theorem le_foldl_max (ids : List Int) : ∀ init : Int, init ≤ ids.foldl max init := by
  induction ids with
  | nil => intro init; exact le_refl _
  | cons x rest ih =>
    intro init
    exact le_trans (le_max_left init x) (ih (max init x))

theorem freshID_pos (ids : List Int) : 1 ≤ freshID ids := by
  unfold freshID
  have := le_foldl_max ids 0
  omega

theorem newTransfer_ne_zero (l : Ledger) (arg : CreateTransferParams) :
    l.newTransfer arg ≠ Transfer.zero := by
  intro h
  have h2 := congrArg (fun t => t.ID) h
  simp only [Ledger.newTransfer, Transfer.zero] at h2
  have := freshID_pos (l.transfers.map (fun x => x.ID))
  omega

theorem CreateTransfer_value (q : Queries) (arg : CreateTransferParams) :
    ((q.CreateTransfer arg).1.2 = none → (q.CreateTransfer arg).1.1 = q.ledger.newTransfer arg) ∧
    ((q.CreateTransfer arg).1.2 ≠ none → (q.CreateTransfer arg).1.1 = Transfer.zero) := by
  unfold Queries.CreateTransfer
  simp only []
  split
  · simp
  · split <;> simp

theorem transferFn_out_Transfer (arg : CreateTransferParams) (res : TransferTxResult)
    (q : Queries) :
    (transferFn arg res q).1.1.Transfer = (q.CreateTransfer arg).1.1 := by
  unfold transferFn
  simp only []
  split
  · rfl
  · split
    · rfl
    · split
      · rfl
      · split <;> rfl

theorem transferFn_out_of_CreateTransfer_failed (arg : CreateTransferParams)
    (res : TransferTxResult) (q : Queries) (h : (q.CreateTransfer arg).1.2 ≠ none) :
    (transferFn arg res q).1.1 = { res with Transfer := Transfer.zero } := by
  have hv := (CreateTransfer_value q arg).2 h
  have heta : (CreateTransferParams.mk arg.FromAccountID arg.ToAccountID arg.Amount) = arg := rfl
  unfold transferFn
  simp only [heta]
  split
  · simp only [hv]
  · rename_i hnone
    exact absurd hnone h

theorem TransferTx_out (f : Faults) (db : Ledger) (arg : CreateTransferParams) :
    (f.beginTx = none → (TransferTx f db arg).out =
      (transferFn arg TransferTxResult.zero (New { base := db, faults := f })).1.1) ∧
    (f.beginTx ≠ none → (TransferTx f db arg).out = TransferTxResult.zero) := by
  unfold TransferTx execTx BeginTx
  constructor
  · intro hb
    simp only [hb]
    split
    · split <;> rfl
    · rfl
  · intro hb
    cases h : f.beginTx with
    | none => exact absurd h hb
    | some e => rfl

theorem addMoney_fault_out (q : Queries) (i1 d1 i2 d2 : Int) (e : GoError)
    (a1 : BankAccount) (k : Nat) (rest : List (Option GoError)) (hk : k < 2)
    (hs : q.script = List.replicate k none ++ some e :: rest)
    (hA1 : q.ledger.getAccount i1 = some a1) (hr1 : isInt64 (a1.Balance + d1)) :
    (addMoney q i1 d1 i2 d2).1.1 = (if k = 1 then bumpBalance i1 d1 a1 else BankAccount.zero) ∧
    (addMoney q i1 d1 i2 d2).1.2.1 = BankAccount.zero := by
  unfold addMoney
  interval_cases k
  · have h0 : nextFault q.script = some e := by rw [hs]; rfl
    rw [AddBankAccountBalance_fault q _ e h0]
    simp
  · have h0 : nextFault q.script = none := by rw [hs]; rfl
    have h1 : nextFault q.script.tail = some e := by rw [hs]; rfl
    rw [AddBankAccountBalance_ok q _ a1 h0 hA1 hr1]
    simp only []
    rw [AddBankAccountBalance_fault _ _ e (by exact h1)]
    simp

theorem transferFn_fault_out (arg : CreateTransferParams) (q : Queries)
    (e : GoError) (accF accT : BankAccount) (k : Nat) (rest : List (Option GoError))
    (hk1 : 1 ≤ k) (hk : k < 5) (hs : q.script = List.replicate k none ++ some e :: rest)
    (hF : q.ledger.getAccount arg.FromAccountID = some accF)
    (hT : q.ledger.getAccount arg.ToAccountID = some accT)
    (hfit : balancesFit arg accF accT) :
    (transferFn arg TransferTxResult.zero q).1.1 =
      { Transfer := q.ledger.newTransfer arg,
        FromEntry := if 2 ≤ k then (committedResult q.ledger arg accF accT).FromEntry
          else Entry.zero,
        ToEntry := if 3 ≤ k then (committedResult q.ledger arg accF accT).ToEntry
          else Entry.zero,
        FromAccount := if k = 4 ∧ arg.FromAccountID < arg.ToAccountID then
            bumpBalance arg.FromAccountID (neg64 arg.Amount) accF
          else BankAccount.zero,
        ToAccount := if k = 4 ∧ ¬ arg.FromAccountID < arg.ToAccountID then
            bumpBalance arg.ToAccountID arg.Amount accT
          else BankAccount.zero } := by
  have hA := (hasAccount_iff_getAccount _ _).2 ⟨_, hF⟩
  have hB := (hasAccount_iff_getAccount _ _).2 ⟨_, hT⟩
  unfold transferFn
  have h0 : nextFault q.script = none := by
    rw [hs]; obtain ⟨j, rfl⟩ := Nat.exists_eq_succ_of_ne_zero (by omega : k ≠ 0); rfl
  rw [CreateTransfer_ok q _ h0 hA hB]
  simp only []
  by_cases hk1 : k = 1
  · subst hk1
    have h1 : nextFault q.script.tail = some e := by rw [hs]; rfl
    rw [CreateEntry_fault _ _ e (by exact h1)]
    simp [TransferTxResult.zero]
  have h1 : nextFault q.script.tail = none := by
    rw [hs]; interval_cases k <;> first | rfl | omega
  rw [CreateEntry_ok _ _ h1 (by exact hA)]
  simp only []
  by_cases hk2 : k = 2
  · subst hk2
    have h2 : nextFault q.script.tail.tail = some e := by rw [hs]; rfl
    rw [CreateEntry_fault _ _ e (by exact h2)]
    simp [TransferTxResult.zero, committedResult, Ledger.newEntry]
  have h2 : nextFault q.script.tail.tail = none := by
    rw [hs]; interval_cases k <;> first | rfl | omega
  rw [CreateEntry_ok _ _ h2 (by exact hB)]
  simp only []
  have hs3 : q.script.tail.tail.tail = List.replicate (k - 3) none ++ some e :: rest := by
    rw [hs]; interval_cases k <;> first | rfl | omega
  split
  · rename_i hlt
    simp only []
    have hr1 : isInt64 (accF.Balance + neg64 arg.Amount) := by
      have h := hfit.2
      rwa [bumpBalance_of_ne (by rw [getAccount_ID hF]; exact ne_of_lt hlt)] at h
    rw [(addMoney_fault_out _ arg.FromAccountID (neg64 arg.Amount) arg.ToAccountID
      arg.Amount e accF (k - 3) rest (by omega) (by exact hs3) (by exact hF) hr1).1,
      (addMoney_fault_out _ arg.FromAccountID (neg64 arg.Amount) arg.ToAccountID
      arg.Amount e accF (k - 3) rest (by omega) (by exact hs3) (by exact hF) hr1).2]
    interval_cases k <;>
      first | omega | simp [TransferTxResult.zero, committedResult, Ledger.newEntry, hlt]
  · rename_i hlt
    simp only []
    rw [(addMoney_fault_out _ arg.ToAccountID arg.Amount arg.FromAccountID
      (neg64 arg.Amount) e accT (k - 3) rest (by omega) (by exact hs3) (by exact hT) hfit.1).1,
      (addMoney_fault_out _ arg.ToAccountID arg.Amount arg.FromAccountID
      (neg64 arg.Amount) e accT (k - 3) rest (by omega) (by exact hs3) (by exact hT) hfit.1).2]
    interval_cases k <;>
      first | omega | simp [TransferTxResult.zero, committedResult, Ledger.newEntry, hlt]

theorem bindGetBankAccountRequest_none_iff (id : Int) :
    bindGetBankAccountRequest id = none ↔ (isInt64 id ∧ 1 ≤ id) := by
  by_cases h64 : isInt64 id
  · by_cases h0 : id = 0
    · subst h0
      decide
    · unfold bindGetBankAccountRequest
      by_cases h1 : id < 1
      · simp [h64, h0, h1]
      · simp [h64, h0, h1, not_lt.mp h1]
  · unfold bindGetBankAccountRequest
    simp [h64]

theorem bindListBankAccountsRequest_none_iff (pageID pageSize : Int) :
    bindListBankAccountsRequest pageID pageSize = none ↔
      (isInt32 pageID ∧ isInt32 pageSize ∧ 1 ≤ pageID ∧ 1 ≤ pageSize ∧ pageSize ≤ 10) := by
  unfold bindListBankAccountsRequest
  by_cases hp : isInt32 pageID
  · by_cases hs : isInt32 pageSize
    · by_cases h1 : pageID < 1
      · simp [hp, hs, h1]
      · have h1b : 1 ≤ pageID := not_lt.mp h1
        have h0 : pageID ≠ 0 := by omega
        by_cases h2 : pageSize < 1
        · simp [hp, hs, h1, h0, h2]
        · have h2b : 1 ≤ pageSize := not_lt.mp h2
          have h20 : pageSize ≠ 0 := by omega
          by_cases h3 : 10 < pageSize
          · simp [hp, hs, h1, h0, h2, h20, h3]
          · simp [hp, hs, h1, h0, h2, h20, h3, h1b, h2b, not_lt.mp h3]
    · simp [hp, hs]
  · simp [hp]

theorem isInt32_of_page_size {pageSize : Int} (h1 : 1 ≤ pageSize) (h2 : pageSize ≤ 10) :
    isInt32 pageSize := by
  unfold isInt32 minInt32 maxInt32
  omega

theorem offset_exact (pageID pageSize : Int) (h32 : isInt32 pageID) (h1 : 1 ≤ pageID)
    (h2 : 1 ≤ pageSize) (hfit : (pageID - 1) * pageSize ≤ maxInt32) :
    mul32 (sub32 pageID 1) pageSize = (pageID - 1) * pageSize ∧
      0 ≤ (pageID - 1) * pageSize := by
  have hsub : sub32 pageID 1 = pageID - 1 := by
    unfold sub32 wrapInt32
    unfold isInt32 minInt32 maxInt32 at h32
    omega
  have hnn : 0 ≤ (pageID - 1) * pageSize := mul_nonneg (by omega) (by omega)
  refine ⟨?_, hnn⟩
  rw [hsub]
  unfold mul32 wrapInt32
  unfold maxInt32 at hfit
  generalize (pageID - 1) * pageSize = y at hfit hnn
  omega

theorem listBankAccounts_valid (store : Store) (username : String) (pageID pageSize : Int)
    (h32 : isInt32 pageID) (h1 : 1 ≤ pageID) (h2 : 1 ≤ pageSize) (h3 : pageSize ≤ 10) :
    (listBankAccounts store username pageID pageSize).calls =
      [{ Owner := username, Limit := pageSize, Offset := mul32 (sub32 pageID 1) pageSize }] := by
  have hbind := (bindListBankAccountsRequest_none_iff pageID pageSize).2
    ⟨h32, isInt32_of_page_size h2 h3, h1, h2, h3⟩
  unfold listBankAccounts
  rw [hbind]
  simp only []
  split <;> rfl

/-! ## The claims -/

/-- C1. For distinct existing accounts `A` and `B` with any balances `bA`, `bB` and every
amount `a > 0` (an `int64`): when all store operations of `TransferTx(A, B, a)` succeed,
that is when the call returns no error, the stored balance of `A` is `bA - a` and the
stored balance of `B` is `bB + a` afterwards. This happens whenever the environment fails
nowhere and the two new balances fit the `bigint` column; `bA ≥ a` is not required. -/
theorem C1_transfer_moves_amount (f : Faults) (db : Ledger) (A B a bA bB : Int)
    (hAB : A ≠ B) (ha : 0 < a) (ha64 : a ≤ maxInt64)
    (hA : db.balance A = some bA) (hB : db.balance B = some bB) :
    (f.beginTx = none → f.stmtsOk → f.commit = none →
      isInt64 (bA - a) → isInt64 (bB + a) →
      (TransferTx f db { FromAccountID := A, ToAccountID := B, Amount := a }).err = none) ∧
    ((TransferTx f db { FromAccountID := A, ToAccountID := B, Amount := a }).err = none →
      (TransferTx f db { FromAccountID := A, ToAccountID := B, Amount := a }).db.balance A
        = some (bA - a) ∧
      (TransferTx f db { FromAccountID := A, ToAccountID := B, Amount := a }).db.balance B
        = some (bB + a)) := by
  have hneg : neg64 a = -a := neg64_eq_neg (by unfold minInt64; omega) ha64
  constructor
  · intro hb hs hc hrA hrB
    obtain ⟨accF, hF⟩ : ∃ x, db.getAccount A = some x := by
      unfold Ledger.balance at hA
      cases hg : db.getAccount A with
      | none => simp [hg] at hA
      | some x => exact ⟨x, rfl⟩
    obtain ⟨accT, hT⟩ : ∃ x, db.getAccount B = some x := by
      unfold Ledger.balance at hB
      cases hg : db.getAccount B with
      | none => simp [hg] at hB
      | some x => exact ⟨x, rfl⟩
    have hbF : accF.Balance = bA := by
      simpa [Ledger.balance, hF] using hA
    have hbT : accT.Balance = bB := by
      simpa [Ledger.balance, hT] using hB
    have hfit : balancesFit { FromAccountID := A, ToAccountID := B, Amount := a } accF accT := by
      refine ⟨by simpa [hbT] using hrB, ?_⟩
      have hne : accF.ID ≠ B := by rw [getAccount_ID hF]; exact hAB
      simp only [bumpBalance_of_ne hne, hneg, hbF]
      exact hrA
    rw [TransferTx_ok f db _ accF accT hb (fiveOk_of_stmtsOk hs) hc hF hT hfit]
  · intro hok
    rw [TransferTx_success_db f db _ hok]
    constructor
    · simp only [committed_balance, hA, hneg, Option.map_some', if_true, if_neg hAB]
      congr 1; omega
    · simp only [committed_balance, hB, Option.map_some', if_true, if_neg (Ne.symm hAB)]
      congr 1; omega

/-- Witness for C1: scenario 1 of §8, `TransferTx(1, 2, 30)` on balances 100 and 50 in
an environment without failures returns no error and gives 70 and 80. -/
theorem C1_transfer_moves_amount_witness :
    (TransferTx Faults.none scenario1 { FromAccountID := 1, ToAccountID := 2, Amount := 30 }).err
      = none ∧
    (TransferTx Faults.none scenario1
      { FromAccountID := 1, ToAccountID := 2, Amount := 30 }).db.balance 1 = some (100 - 30) ∧
    (TransferTx Faults.none scenario1
      { FromAccountID := 1, ToAccountID := 2, Amount := 30 }).db.balance 2 = some (50 + 30) :=
  ⟨(C1_transfer_moves_amount Faults.none scenario1 1 2 30 100 50 (by decide) (by decide)
      (by decide) (by decide) (by decide)).1 rfl (by intro o ho; cases ho) rfl
      (by decide) (by decide),
    (C1_transfer_moves_amount Faults.none scenario1 1 2 30 100 50 (by decide) (by decide)
      (by decide) (by decide) (by decide)).2 (by decide)⟩

/-- Counterexample to C2 as stated: `TransferTx(1, 2, -2^63)` on scenario 1 succeeds, yet
Go computes `-arg.Amount` as `-2^63` again, so the entry on the source account carries
`-2^63` and not `2^63`, and the two entry amounts sum to `-2^64`, not to zero. -/
theorem C2_counterexample :
    (TransferTx Faults.none scenario1
      { FromAccountID := 1, ToAccountID := 2, Amount := -9223372036854775808 }).err = none ∧
    (TransferTx Faults.none scenario1
      { FromAccountID := 1, ToAccountID := 2, Amount := -9223372036854775808 }).db.entries =
        [Entry.mk 1 1 (-9223372036854775808) 9, Entry.mk 2 2 (-9223372036854775808) 9] ∧
    (TransferTx Faults.none scenario1
      { FromAccountID := 1, ToAccountID := 2, Amount := -9223372036854775808 }).out.FromEntry.Amount
        ≠ -(-9223372036854775808) ∧
    (TransferTx Faults.none scenario1
      { FromAccountID := 1, ToAccountID := 2, Amount := -9223372036854775808 }).out.FromEntry.Amount +
    (TransferTx Faults.none scenario1
      { FromAccountID := 1, ToAccountID := 2, Amount := -9223372036854775808 }).out.ToEntry.Amount
        ≠ 0 := by
  decide

/-- C2 (amended). Every successful `TransferTx(from, to, a)` whose amount is an `int64`
other than the least one, `-2^63`, appends exactly one Transfer `(from, to, a)` and exactly
two Entries, the first on `from` with amount `-a`, the second on `to` with amount `a`, whose
amounts sum to zero, and the returned result carries these three records. -/
theorem C2_transfer_records (f : Faults) (db : Ledger) (arg : CreateTransferParams)
    (h64 : isInt64 arg.Amount) (hmin : arg.Amount ≠ minInt64)
    (hok : (TransferTx f db arg).err = none) :
    (TransferTx f db arg).db.transfers = db.transfers ++ [(TransferTx f db arg).out.Transfer] ∧
    (TransferTx f db arg).db.entries =
      db.entries ++ [(TransferTx f db arg).out.FromEntry, (TransferTx f db arg).out.ToEntry] ∧
    (TransferTx f db arg).out.Transfer.FromAccountID = arg.FromAccountID ∧
    (TransferTx f db arg).out.Transfer.ToAccountID = arg.ToAccountID ∧
    (TransferTx f db arg).out.Transfer.Amount = arg.Amount ∧
    (TransferTx f db arg).out.FromEntry.AccountID = arg.FromAccountID ∧
    (TransferTx f db arg).out.FromEntry.Amount = -arg.Amount ∧
    (TransferTx f db arg).out.ToEntry.AccountID = arg.ToAccountID ∧
    (TransferTx f db arg).out.ToEntry.Amount = arg.Amount ∧
    (TransferTx f db arg).out.FromEntry.Amount + (TransferTx f db arg).out.ToEntry.Amount = 0 := by
  obtain ⟨hb, hs, hc, accF, accT, hF, hT, hfit⟩ := TransferTx_inv f db arg hok
  have hneg : neg64 arg.Amount = -arg.Amount :=
    neg64_eq_neg (lt_of_le_of_ne h64.1 (Ne.symm hmin)) h64.2
  rw [TransferTx_ok f db arg accF accT hb hs hc hF hT hfit]
  simp [Ledger.committed, committedResult, Ledger.newTransfer, Ledger.newEntry, hneg]

/-- Witness for C2 (amended): scenario 1, `TransferTx(1, 2, 30)` without failures. -/
theorem C2_transfer_records_witness :
    isInt64 30 ∧ (30 : Int) ≠ minInt64 ∧
    (TransferTx Faults.none scenario1
      { FromAccountID := 1, ToAccountID := 2, Amount := 30 }).db.transfers =
        scenario1.transfers ++ [(TransferTx Faults.none scenario1
          { FromAccountID := 1, ToAccountID := 2, Amount := 30 }).out.Transfer] ∧
    (TransferTx Faults.none scenario1
      { FromAccountID := 1, ToAccountID := 2, Amount := 30 }).out.FromEntry.Amount = -30 :=
  ⟨by decide, by decide,
    (C2_transfer_records Faults.none scenario1
      { FromAccountID := 1, ToAccountID := 2, Amount := 30 } (by decide) (by decide) (by decide)).1,
    (C2_transfer_records Faults.none scenario1
      { FromAccountID := 1, ToAccountID := 2, Amount := 30 } (by decide) (by decide)
        (by decide)).2.2.2.2.2.2.1⟩

/-- C3. If a step of `TransferTx` fails (the closure run inside the transaction returns an
error `e`, whichever of the five statements produced it) and the rollback succeeds, the
committed store after the call is identical to the store before it: no Transfer, no Entry
and no balance change persists; the call reports the failure and no commit is attempted. -/
theorem C3_failed_transfer_leaves_store (f : Faults) (db : Ledger) (arg : CreateTransferParams)
    (e : GoError) (hb : f.beginTx = none)
    (hstep : (transferFn arg TransferTxResult.zero (New { base := db, faults := f })).1.2 = some e)
    (hrb : f.rollback = none) :
    (TransferTx f db arg).db = db ∧
    (TransferTx f db arg).db.transfers = db.transfers ∧
    (TransferTx f db arg).db.entries = db.entries ∧
    (TransferTx f db arg).db.accounts = db.accounts ∧
    (TransferTx f db arg).err = some e ∧
    Event.commit ∉ (TransferTx f db arg).log := by
  obtain ⟨hdb, -, hlog, herr⟩ := TransferTx_rollback_run f db arg e hb hstep
  rw [hrb] at herr
  refine ⟨hdb, by rw [hdb], by rw [hdb], by rw [hdb], herr, ?_⟩
  obtain ⟨k, -, -, hk⟩ := transferFn_log arg TransferTxResult.zero (New { base := db, faults := f })
  rw [hlog, hk]
  have := commit_not_mem_stepEvents arg k
  simp [New, this]

/-- Witness for C3: on scenario 1 the first balance mutation of `TransferTx(1, 2, 30)` fails
(after the transfer and both entries were created) and the rollback succeeds. -/
theorem C3_failed_transfer_leaves_store_witness :
    (TransferTx (Faults.mk none [none, none, none, some (GoError.mk "deadlock detected")] none none)
      scenario1 { FromAccountID := 1, ToAccountID := 2, Amount := 30 }).db = scenario1 :=
  (C3_failed_transfer_leaves_store
    (Faults.mk none [none, none, none, some (GoError.mk "deadlock detected")] none none)
    scenario1 { FromAccountID := 1, ToAccountID := 2, Amount := 30 }
    (GoError.mk "deadlock detected") rfl (by decide) rfl).1


/-- C4. For all account identifiers `A`, `B` and all amounts, in every run of `TransferTx`
the balance mutations issued are an initial part of "the account with the smaller
identifier, then the account with the larger identifier"; a run that succeeds issues
exactly these two. Hence `TransferTx(A, B, a)` and `TransferTx(B, A, a2)` mutate the same
accounts in the same order. -/
theorem C4_lower_identifier_first (f g : Faults) (db db2 : Ledger) (A B a a2 : Int) :
    (balanceMutations (TransferTx f db
      { FromAccountID := A, ToAccountID := B, Amount := a }).log).map (fun p => p.ID)
        <+: [min A B, max A B] ∧
    (balanceMutations (TransferTx g db2
      { FromAccountID := B, ToAccountID := A, Amount := a2 }).log).map (fun p => p.ID)
        <+: [min A B, max A B] ∧
    ((TransferTx f db { FromAccountID := A, ToAccountID := B, Amount := a }).err = none →
      (balanceMutations (TransferTx f db
        { FromAccountID := A, ToAccountID := B, Amount := a }).log).map (fun p => p.ID)
          = [min A B, max A B]) ∧
    ((TransferTx g db2 { FromAccountID := B, ToAccountID := A, Amount := a2 }).err = none →
      (balanceMutations (TransferTx g db2
        { FromAccountID := B, ToAccountID := A, Amount := a2 }).log).map (fun p => p.ID)
          = [min A B, max A B]) := by
  have h1 := TransferTx_mutation_order f db { FromAccountID := A, ToAccountID := B, Amount := a }
  have h2 := TransferTx_mutation_order g db2 { FromAccountID := B, ToAccountID := A, Amount := a2 }
  simp only [min_comm B A, max_comm B A] at h2
  exact ⟨h1.1, h2.1, h1.2, h2.2⟩

/-- Witness for C4: on scenario 1, `TransferTx(1, 2, 30)` and `TransferTx(2, 1, 30)` both
succeed and both mutate account 1 first and account 2 second. -/
theorem C4_lower_identifier_first_witness :
    (balanceMutations (TransferTx Faults.none scenario1
      { FromAccountID := 1, ToAccountID := 2, Amount := 30 }).log).map (fun p => p.ID) = [1, 2] ∧
    (balanceMutations (TransferTx Faults.none scenario1
      { FromAccountID := 2, ToAccountID := 1, Amount := 30 }).log).map (fun p => p.ID) = [1, 2] :=
  ⟨(C4_lower_identifier_first Faults.none Faults.none scenario1 scenario1 1 2 30 30).2.2.1
      (by decide),
    (C4_lower_identifier_first Faults.none Faults.none scenario1 scenario1 1 2 30 30).2.2.2
      (by decide)⟩


/-- Counterexample to C5 as stated: `TransferTx(1, 2, -2^63)` on scenario 1 succeeds, but
the source account is mutated with delta `-2^63` (Go's wrapped `-arg.Amount`), not with
`-a = 2^63`; its returned snapshot holds `100 - 2^63`, not `100 + 2^63`. -/
theorem C5_counterexample :
    (TransferTx Faults.none scenario1
      { FromAccountID := 1, ToAccountID := 2, Amount := -9223372036854775808 }).err = none ∧
    balanceMutations (TransferTx Faults.none scenario1
      { FromAccountID := 1, ToAccountID := 2, Amount := -9223372036854775808 }).log =
        [AddBankAccountBalanceParams.mk 1 (-9223372036854775808),
         AddBankAccountBalanceParams.mk 2 (-9223372036854775808)] ∧
    AddBankAccountBalanceParams.mk 1 (-(-9223372036854775808)) ∉
      balanceMutations (TransferTx Faults.none scenario1
        { FromAccountID := 1, ToAccountID := 2, Amount := -9223372036854775808 }).log ∧
    (TransferTx Faults.none scenario1
      { FromAccountID := 1, ToAccountID := 2, Amount := -9223372036854775808 }).out.FromAccount.Balance
        ≠ 100 - (-9223372036854775808) := by
  decide

/-- C5 (amended). For every successful `TransferTx(from, to, a)` with `from ≠ to` and `a`
an `int64` other than the least one, `-2^63`: whichever branch of the ordering is taken,
the two balance mutations are `(from, -a)` and `(to, +a)`, the result's `FromAccount` is
the stored row of `from` after the call (balance lowered by `a`) and its `ToAccount` the
stored row of `to` after the call (balance raised by `a`); the two are never swapped. -/
theorem C5_result_accounts (f : Faults) (db : Ledger) (arg : CreateTransferParams)
    (hne : arg.FromAccountID ≠ arg.ToAccountID)
    (h64 : isInt64 arg.Amount) (hmin : arg.Amount ≠ minInt64)
    (hok : (TransferTx f db arg).err = none) :
    (balanceMutations (TransferTx f db arg).log =
        [{ ID := arg.FromAccountID, Amount := -arg.Amount },
         { ID := arg.ToAccountID, Amount := arg.Amount }] ∨
      balanceMutations (TransferTx f db arg).log =
        [{ ID := arg.ToAccountID, Amount := arg.Amount },
         { ID := arg.FromAccountID, Amount := -arg.Amount }]) ∧
    (TransferTx f db arg).db.getAccount arg.FromAccountID
      = some (TransferTx f db arg).out.FromAccount ∧
    (TransferTx f db arg).db.getAccount arg.ToAccountID
      = some (TransferTx f db arg).out.ToAccount ∧
    (TransferTx f db arg).out.FromAccount.ID = arg.FromAccountID ∧
    (TransferTx f db arg).out.ToAccount.ID = arg.ToAccountID ∧
    (∀ bF, db.balance arg.FromAccountID = some bF →
      (TransferTx f db arg).out.FromAccount.Balance = bF - arg.Amount) ∧
    (∀ bT, db.balance arg.ToAccountID = some bT →
      (TransferTx f db arg).out.ToAccount.Balance = bT + arg.Amount) := by
  obtain ⟨hb, hs, hc, accF, accT, hF, hT, hfit⟩ := TransferTx_inv f db arg hok
  have hneg : neg64 arg.Amount = -arg.Amount :=
    neg64_eq_neg (lt_of_le_of_ne h64.1 (Ne.symm hmin)) h64.2
  have hFid := getAccount_ID hF
  have hTid := getAccount_ID hT
  have hF1 : accF.ID ≠ arg.ToAccountID := by rw [hFid]; exact hne
  have hT1 : accT.ID ≠ arg.FromAccountID := by rw [hTid]; exact Ne.symm hne
  have hE1 : bumpBalance arg.ToAccountID arg.Amount
      (bumpBalance arg.FromAccountID (neg64 arg.Amount) accF) =
      bumpBalance arg.FromAccountID (neg64 arg.Amount) accF :=
    bumpBalance_of_ne (by rw [bumpBalance_ID]; exact hF1) _
  have hE2 : bumpBalance arg.ToAccountID arg.Amount accF = accF := bumpBalance_of_ne hF1 _
  have hE3 : bumpBalance arg.FromAccountID (neg64 arg.Amount) accT = accT :=
    bumpBalance_of_ne hT1 _
  rw [TransferTx_ok f db arg accF accT hb hs hc hF hT hfit]
  simp only [committed_getAccount, hF, hT, committedResult, Option.map_some', hE1, hE2, hE3,
    bumpBalance_ID, hFid, hTid, Ledger.balance]
  refine ⟨?_, trivial, trivial, trivial, trivial, ?_, ?_⟩
  · by_cases hlt : arg.FromAccountID < arg.ToAccountID
    · left
      simp [balanceMutations, balanceMutations_append, stepEvents, hlt, hneg]
    · right
      simp [balanceMutations, balanceMutations_append, stepEvents, hlt, hneg]
  · intro bF hbF
    simp only [Option.some.injEq] at hbF
    rw [bumpBalance_Balance, hFid, hneg, ← hbF]
    simp
    omega
  · intro bT hbT
    simp only [Option.some.injEq] at hbT
    rw [bumpBalance_Balance, hTid, ← hbT]
    simp


/-- Witness for C5 (amended): on scenario 1, `TransferTx(2, 1, 30)` takes the branch that
mutates the destination first; the result's accounts are the stored rows of 2 and 1. -/
theorem C5_result_accounts_witness :
    (TransferTx Faults.none scenario1
      { FromAccountID := 2, ToAccountID := 1, Amount := 30 }).db.getAccount 2 =
        some (TransferTx Faults.none scenario1
          { FromAccountID := 2, ToAccountID := 1, Amount := 30 }).out.FromAccount ∧
    (TransferTx Faults.none scenario1
      { FromAccountID := 2, ToAccountID := 1, Amount := 30 }).db.getAccount 1 =
        some (TransferTx Faults.none scenario1
          { FromAccountID := 2, ToAccountID := 1, Amount := 30 }).out.ToAccount :=
  ⟨(C5_result_accounts Faults.none scenario1
      { FromAccountID := 2, ToAccountID := 1, Amount := 30 }
      (by decide) (by decide) (by decide) (by decide)).2.1,
    (C5_result_accounts Faults.none scenario1
      { FromAccountID := 2, ToAccountID := 1, Amount := 30 }
      (by decide) (by decide) (by decide) (by decide)).2.2.1⟩

/-- C6. For every finite sequence of successful `TransferTx` calls between two distinct
accounts `A` and `B`, in either direction and with any positive (`int64`) amounts, the
final balance of each account is its initial balance plus the signed sum of the transfer
amounts. In particular `N` transfers of amount `a` from `A` to `B` change `A` by `-N·a`
and `B` by `+N·a`, and equal numbers of transfers of one amount `a` in the two directions
leave both balances unchanged. -/
theorem C6_sequence_net_effect (A B : Int) (hAB : A ≠ B)
    (calls : List (Faults × CreateTransferParams)) (db db2 : Ledger) (bA bB : Int)
    (hdir : ∀ c ∈ calls, (c.2.FromAccountID = A ∧ c.2.ToAccountID = B) ∨
      (c.2.FromAccountID = B ∧ c.2.ToAccountID = A))
    (hpos : ∀ c ∈ calls, 0 < c.2.Amount ∧ c.2.Amount ≤ maxInt64)
    (hA : db.balance A = some bA) (hB : db.balance B = some bB)
    (hrun : runTransfers db calls = some db2) :
    db2.balance A = some (bA + (calls.map (fun c => signedAmount A c.2)).sum) ∧
    db2.balance B = some (bB + (calls.map (fun c => signedAmount B c.2)).sum) ∧
    (∀ a : Int, (∀ c ∈ calls, c.2 = { FromAccountID := A, ToAccountID := B, Amount := a }) →
      db2.balance A = some (bA - calls.length * a) ∧
      db2.balance B = some (bB + calls.length * a)) ∧
    (∀ a : Int, (∀ c ∈ calls, c.2.Amount = a) →
      calls.countP (fun c => decide (c.2.FromAccountID = A)) =
        calls.countP (fun c => decide (c.2.FromAccountID = B)) →
      db2.balance A = some bA ∧ db2.balance B = some bB) := by
  have hfinA := runTransfers_balance calls db db2 A bA hpos hA hrun
  have hfinB := runTransfers_balance calls db db2 B bB hpos hB hrun
  refine ⟨hfinA, hfinB, ?_, ?_⟩
  · intro a hall
    have hsA : (calls.map (fun c => signedAmount A c.2)).sum = calls.length * (-a) :=
      sum_map_const calls _ _ (fun c hc => by
        rw [hall c hc]; simp [signedAmount, Ne.symm hAB])
    have hsB : (calls.map (fun c => signedAmount B c.2)).sum = calls.length * a :=
      sum_map_const calls _ _ (fun c hc => by
        rw [hall c hc]; simp [signedAmount, hAB])
    rw [hfinA, hfinB, hsA, hsB]
    constructor
    · congr 1; ring
    · rfl
  · intro a hamt hcount
    obtain ⟨hsA, hsB⟩ := sum_signed_balanced A B a hAB calls hdir hamt
    rw [hfinA, hfinB, hsA, hsB, hcount]
    simp

/-- Witness for C6: scenario 2 of §8, five successful calls `TransferTx(1, 2, 10)` on
balances 100 and 50 leave 50 and 100. -/
theorem C6_sequence_net_effect_witness :
    ((runTransfers scenario1 scenario2Calls).getD scenario1).balance 1
      = some (100 - (scenario2Calls.length : Int) * 10) ∧
    ((runTransfers scenario1 scenario2Calls).getD scenario1).balance 2
      = some (50 + (scenario2Calls.length : Int) * 10) :=
  (C6_sequence_net_effect 1 2 (by decide) scenario2Calls scenario1
    ((runTransfers scenario1 scenario2Calls).getD scenario1) 100 50
    (by decide) (by decide) (by decide) (by decide) (by decide)).2.2.1 10 (by decide)


/-- C7. Double-entry conservation is preserved by `TransferTx`: if before the call every
account's balance equals the sum of the amounts of its entries, then after a call that
succeeded, or that failed and was rolled back cleanly, this still holds. -/
theorem C7_conservation_preserved (f : Faults) (db : Ledger) (arg : CreateTransferParams)
    (hinv : db.conserved)
    (h : (TransferTx f db arg).err = none ∨
      (Event.rollback ∈ (TransferTx f db arg).log ∧ f.rollback = none)) :
    (TransferTx f db arg).db.conserved := by
  rcases h with hok | ⟨hrb, -⟩
  · rw [TransferTx_success_db f db arg hok]
    exact committed_conserved db arg hinv
  · rw [TransferTx_db_of_rollback f db arg hrb]
    exact hinv

/-- Witness for C7: the funded scenario satisfies conservation, and still does after a
successful `TransferTx(1, 2, 30)`. -/
theorem C7_conservation_preserved_witness :
    scenarioFunded.conserved ∧
    (TransferTx Faults.none scenarioFunded
      { FromAccountID := 1, ToAccountID := 2, Amount := 30 }).db.conserved :=
  ⟨by decide,
    C7_conservation_preserved Faults.none scenarioFunded
      { FromAccountID := 1, ToAccountID := 2, Amount := 30 } (by decide) (Or.inl (by decide))⟩


/-- C8. `TransferTx` only appends to the ledger: after a successful call every Transfer
and every Entry that existed before is still there, unchanged and in place, followed by
the new rows; the account rows are the same rows in the same order, each with its
identifier, owner, currency and creation time unchanged, and every row whose identifier
is neither `from` nor `to` is unchanged altogether. -/
theorem C8_append_only (f : Faults) (db : Ledger) (arg : CreateTransferParams)
    (hok : (TransferTx f db arg).err = none) :
    db.transfers <+: (TransferTx f db arg).db.transfers ∧
    db.entries <+: (TransferTx f db arg).db.entries ∧
    List.Forall₂
      (fun old new => new.ID = old.ID ∧ new.Owner = old.Owner ∧ new.Currency = old.Currency ∧
        new.CreatedAt = old.CreatedAt ∧
        (old.ID ≠ arg.FromAccountID → old.ID ≠ arg.ToAccountID → new = old))
      db.accounts (TransferTx f db arg).db.accounts := by
  rw [TransferTx_success_db f db arg hok]
  refine ⟨⟨_, rfl⟩, ⟨_, rfl⟩, ?_⟩
  unfold Ledger.committed
  simp only []
  rw [List.forall₂_map_right_iff]
  apply List.forall₂_same.2
  intro x _
  refine ⟨by simp, by simp, by simp, by simp, ?_⟩
  intro h1 h2
  rw [bumpBalance_of_ne h1, bumpBalance_of_ne h2]

/-- Witness for C8: after a successful `TransferTx(1, 2, 30)` on the funded scenario the
two opening entries are still the first two entries. -/
theorem C8_append_only_witness :
    scenarioFunded.entries <+: (TransferTx Faults.none scenarioFunded
      { FromAccountID := 1, ToAccountID := 2, Amount := 30 }).db.entries :=
  (C8_append_only Faults.none scenarioFunded
    { FromAccountID := 1, ToAccountID := 2, Amount := 30 } (by decide)).2.1

/-- C9. When beginning the transaction fails with `e`, `TransferTx` returns `e` itself and
runs no step. When the transaction begins, the rollback succeeds and the first `k < 5`
statements succeed (the accounts exist, the increments fit the `bigint` column and the
environment lets them pass) while the next one fails with `e`, `TransferTx` returns `e` itself
(not wrapped or replaced), having issued each of the first `k + 1` statements exactly once
and nothing after the failing one (no retry). In general, with a clean rollback the error
returned is the error of the closure. -/
theorem C9_error_propagates_unchanged (f : Faults) (db : Ledger) (arg : CreateTransferParams)
    (e : GoError) :
    (f.beginTx = some e →
      (TransferTx f db arg).err = some e ∧ (TransferTx f db arg).log = [Event.beginTx] ∧
      (TransferTx f db arg).db = db ∧ (TransferTx f db arg).out = TransferTxResult.zero) ∧
    (f.beginTx = none → f.rollback = none →
      ∀ (k : Nat) (rest : List (Option GoError)) (accF accT : BankAccount), k < 5 →
        f.stmts = List.replicate k none ++ some e :: rest →
        db.getAccount arg.FromAccountID = some accF →
        db.getAccount arg.ToAccountID = some accT →
        balancesFit arg accF accT →
        (TransferTx f db arg).err = some e ∧
        (TransferTx f db arg).log =
          Event.beginTx :: (stepEvents arg).take (k + 1) ++ [Event.rollback]) ∧
    (f.beginTx = none → f.rollback = none →
      (transferFn arg TransferTxResult.zero (New { base := db, faults := f })).1.2 = some e →
      (TransferTx f db arg).err = some e) := by
  refine ⟨?_, ?_, ?_⟩
  · intro hb
    unfold TransferTx execTx BeginTx
    simp [hb]
  · intro hb hrb k rest accF accT hk hs hF hT hfit
    obtain ⟨he, hl⟩ := transferFn_fault arg TransferTxResult.zero
      (New { base := db, faults := f }) e accF accT k rest hk hs hF hT hfit
    obtain ⟨-, -, hlog, herr⟩ := TransferTx_rollback_run f db arg e hb he
    rw [hrb] at herr
    refine ⟨herr, ?_⟩
    rw [hlog, hl]
    simp [New]
  · intro hb hrb he
    obtain ⟨-, -, -, herr⟩ := TransferTx_rollback_run f db arg e hb he
    rw [hrb] at herr
    exact herr

/-- Witness for C9: on scenario 1 the fourth statement of `TransferTx(1, 2, 30)` fails with
"deadlock detected"; that error is returned and the fifth statement is never issued. -/
theorem C9_error_propagates_unchanged_witness :
    (TransferTx (Faults.mk none [none, none, none, some (GoError.mk "deadlock detected")] none none)
      scenario1 { FromAccountID := 1, ToAccountID := 2, Amount := 30 }).err
        = some (GoError.mk "deadlock detected") ∧
    (TransferTx (Faults.mk none [none, none, none, some (GoError.mk "deadlock detected")] none none)
      scenario1 { FromAccountID := 1, ToAccountID := 2, Amount := 30 }).log =
        Event.beginTx ::
          (stepEvents { FromAccountID := 1, ToAccountID := 2, Amount := 30 }).take (3 + 1)
          ++ [Event.rollback] :=
  (C9_error_propagates_unchanged
    (Faults.mk none [none, none, none, some (GoError.mk "deadlock detected")] none none)
    scenario1 { FromAccountID := 1, ToAccountID := 2, Amount := 30 }
    (GoError.mk "deadlock detected")).2.1 rfl rfl 3 []
      (BankAccount.mk 1 "alice" 100 "USD" 7) (BankAccount.mk 2 "bob" 50 "USD" 8)
      (by decide) rfl (by decide) (by decide) (by decide)

/-- C10. When the closure run by `execTx` fails with `e` and the rollback then fails with
`r`, `execTx` returns the compound error whose message is `"tx err: <e>, rb err: <r>"`,
a value different from both `e` and `r`; when the rollback succeeds it returns `e`. So the
compound error is returned if and only if the rollback failed, and the rollback error is
never dropped. The same holds for `TransferTx`, which is `execTx` applied to its closure. -/
theorem C10_rollback_failure_compound {κ : Type} (f : Faults) (db : Ledger)
    (fn : κ → Queries → (κ × Option GoError) × Queries) (init : κ) (e : GoError)
    (hb : f.beginTx = none)
    (hfn : (fn init (New { base := db, faults := f })).1.2 = some e) :
    (∀ r, f.rollback = some r →
      (execTx f db fn init).err = some (rollbackFailure e r) ∧
      (rollbackFailure e r).msg = "tx err: " ++ e.msg ++ ", rb err: " ++ r.msg ∧
      rollbackFailure e r ≠ e ∧ rollbackFailure e r ≠ r) ∧
    (f.rollback = none → (execTx f db fn init).err = some e) ∧
    ((∃ r, (execTx f db fn init).err = some (rollbackFailure e r)) ↔ f.rollback ≠ none) ∧
    (∀ (arg : CreateTransferParams) (e2 r : GoError),
      (transferFn arg TransferTxResult.zero (New { base := db, faults := f })).1.2 = some e2 →
      f.rollback = some r →
      (TransferTx f db arg).err = some (rollbackFailure e2 r)) := by
  have key : ∀ (κ2 : Type) (g : κ2 → Queries → (κ2 × Option GoError) × Queries) (i : κ2)
      (e2 : GoError), (g i (New { base := db, faults := f })).1.2 = some e2 →
      (execTx f db g i).err = some (match f.rollback with
        | some rbErr => rollbackFailure e2 rbErr
        | none => e2) := by
    intro κ2 g i e2 hg
    unfold execTx BeginTx
    simp only [hb, hg, Tx.Rollback]
    cases f.rollback <;> rfl
  have hmain := key κ fn init e hfn
  refine ⟨?_, ?_, ?_, ?_⟩
  · intro r hr
    rw [hr] at hmain
    exact ⟨hmain, rfl, rollbackFailure_ne_left e r, rollbackFailure_ne_right e r⟩
  · intro hr
    rw [hr] at hmain
    exact hmain
  · constructor
    · rintro ⟨r, hr⟩ hnone
      rw [hnone] at hmain
      rw [hmain] at hr
      exact rollbackFailure_ne_left e r (Option.some.inj hr).symm
    · intro hne
      cases hr : f.rollback with
      | none => exact absurd hr hne
      | some r =>
        rw [hr] at hmain
        exact ⟨r, hmain⟩
  · intro arg e2 r he2 hr
    have := key TransferTxResult (transferFn arg) TransferTxResult.zero e2 he2
    rw [hr] at this
    exact this

/-- Witness for C10: on scenario 1 the fourth statement of `TransferTx(1, 2, 30)` fails with
"deadlock detected" and the rollback with "connection reset"; the call returns the
compound error. -/
theorem C10_rollback_failure_compound_witness :
    (TransferTx (Faults.mk none [none, none, none, some (GoError.mk "deadlock detected")]
        (some (GoError.mk "connection reset")) none)
      scenario1 { FromAccountID := 1, ToAccountID := 2, Amount := 30 }).err
        = some (GoError.mk "tx err: deadlock detected, rb err: connection reset") :=
  ((C10_rollback_failure_compound
    (Faults.mk none [none, none, none, some (GoError.mk "deadlock detected")]
      (some (GoError.mk "connection reset")) none)
    scenario1 (transferFn { FromAccountID := 1, ToAccountID := 2, Amount := 30 })
    TransferTxResult.zero (GoError.mk "deadlock detected") rfl (by decide)).1
      (GoError.mk "connection reset") rfl).1

/-- C11. In `execTx`, once the transaction has begun, exactly one call follows the closure:
`Commit` if and only if the closure returned no error, `Rollback` if and only if it
returned an error; on the success path `execTx` returns what `Commit` returned. For
`TransferTx` the whole log therefore holds exactly one commit or rollback. -/
theorem C11_commit_xor_rollback {κ : Type} (f : Faults) (db : Ledger)
    (fn : κ → Queries → (κ × Option GoError) × Queries) (init : κ)
    (hb : f.beginTx = none) :
    (∃ ev, (execTx f db fn init).log = (fn init (New { base := db, faults := f })).2.log ++ [ev] ∧
      (ev = Event.commit ∨ ev = Event.rollback) ∧
      (ev = Event.commit ↔ (fn init (New { base := db, faults := f })).1.2 = none) ∧
      (ev = Event.rollback ↔ (fn init (New { base := db, faults := f })).1.2 ≠ none)) ∧
    ((fn init (New { base := db, faults := f })).1.2 = none →
      (execTx f db fn init).err = f.commit) ∧
    (∀ arg : CreateTransferParams,
      (TransferTx f db arg).log.count Event.commit +
        (TransferTx f db arg).log.count Event.rollback = 1 ∧
      ((TransferTx f db arg).log.count Event.commit = 1 ↔
        (transferFn arg TransferTxResult.zero (New { base := db, faults := f })).1.2 = none)) := by
  have key : ∀ (κ2 : Type) (g : κ2 → Queries → (κ2 × Option GoError) × Queries) (i : κ2),
      ((g i (New { base := db, faults := f })).1.2 = none →
        (execTx f db g i).log = (g i (New { base := db, faults := f })).2.log ++ [Event.commit] ∧
        (execTx f db g i).err = f.commit) ∧
      ((g i (New { base := db, faults := f })).1.2 ≠ none →
        (execTx f db g i).log =
          (g i (New { base := db, faults := f })).2.log ++ [Event.rollback]) := by
    intro κ2 g i
    constructor
    · intro hg
      unfold execTx BeginTx
      simp only [hb, hg, Tx.Commit]
      cases f.commit <;> simp
    · intro hg
      unfold execTx BeginTx
      cases hg2 : (g i (New { base := db, faults := f })).1.2 with
      | none => exact absurd hg2 hg
      | some e =>
        simp only [hb, hg2, Tx.Rollback]
        cases f.rollback <;> rfl
  refine ⟨?_, fun h => ((key κ fn init).1 h).2, ?_⟩
  · by_cases hg : (fn init (New { base := db, faults := f })).1.2 = none
    · exact ⟨Event.commit, ((key κ fn init).1 hg).1, Or.inl rfl, by simp [hg], by simp [hg]⟩
    · exact ⟨Event.rollback, (key κ fn init).2 hg, Or.inr rfl, by simp [hg], by simp [hg]⟩
  · intro arg
    obtain ⟨k, -, -, hk⟩ :=
      transferFn_log arg TransferTxResult.zero (New { base := db, faults := f })
    have hc0 : ((stepEvents arg).take k).count Event.commit = 0 :=
      List.count_eq_zero_of_not_mem (commit_not_mem_stepEvents arg k)
    have hr0 : ((stepEvents arg).take k).count Event.rollback = 0 :=
      List.count_eq_zero_of_not_mem (rollback_not_mem_stepEvents arg k)
    by_cases hg : (transferFn arg TransferTxResult.zero (New { base := db, faults := f })).1.2 = none
    · have hl : (TransferTx f db arg).log = _ := ((key _ (transferFn arg) _).1 hg).1
      rw [hl, hk]
      simp only [New] at hg ⊢
      simp [List.count_append, hc0, hr0, hg]
    · have hl : (TransferTx f db arg).log = _ := (key _ (transferFn arg) _).2 hg
      rw [hl, hk]
      simp only [New] at hg ⊢
      simp [List.count_append, hc0, hr0, hg]

/-- Witness for C11: `TransferTx(1, 2, 30)` on scenario 1 without failures; the closure
succeeds, the log ends with the commit and the call returns the commit's result. -/
theorem C11_commit_xor_rollback_witness :
    (execTx Faults.none scenario1
      (transferFn { FromAccountID := 1, ToAccountID := 2, Amount := 30 })
      TransferTxResult.zero).err = Faults.none.commit :=
  (C11_commit_xor_rollback Faults.none scenario1
    (transferFn { FromAccountID := 1, ToAccountID := 2, Amount := 30 })
    TransferTxResult.zero rfl).2.1 (by decide)

/-- Counterexample to C12 as stated: `TransferTx(1, 2, -30)` on scenario 1 is not rejected.
It opens a transaction, issues its five statements, commits and returns no error; a
Transfer of `-30` is recorded and the balances become 130 and 20. -/
theorem C12_counterexample :
    (TransferTx Faults.none scenario1
      { FromAccountID := 1, ToAccountID := 2, Amount := -30 }).err = none ∧
    (TransferTx Faults.none scenario1
      { FromAccountID := 1, ToAccountID := 2, Amount := -30 }).log =
        Event.beginTx :: stepEvents { FromAccountID := 1, ToAccountID := 2, Amount := -30 }
          ++ [Event.commit] ∧
    (TransferTx Faults.none scenario1
      { FromAccountID := 1, ToAccountID := 2, Amount := -30 }).db.transfers =
        [Transfer.mk 1 1 2 (-30) 9] ∧
    (TransferTx Faults.none scenario1
      { FromAccountID := 1, ToAccountID := 2, Amount := -30 }).db.balance 1 = some 130 ∧
    (TransferTx Faults.none scenario1
      { FromAccountID := 1, ToAccountID := 2, Amount := -30 }).db.balance 2 = some 20 := by
  decide

/-- C12 (amended). `TransferTx` does not validate the amount. For every amount `≤ 0` the
first thing it does is to begin a transaction, in every run; and when the transaction
begins, the accounts exist, the five statements and the commit meet no failure and the
new balances fit, it issues all five statements, commits and returns no error, leaving
the committed transfer, with its non-positive amount, in the store. -/
theorem C12_nonpositive_amount_not_rejected (f : Faults) (db : Ledger)
    (arg : CreateTransferParams) (ha : arg.Amount ≤ 0) :
    (TransferTx f db arg).log.head? = some Event.beginTx ∧
    (∀ accF accT : BankAccount, f.beginTx = none → fiveOk f.stmts → f.commit = none →
      db.getAccount arg.FromAccountID = some accF →
      db.getAccount arg.ToAccountID = some accT →
      balancesFit arg accF accT →
      (TransferTx f db arg).err = none ∧
      (TransferTx f db arg).log = Event.beginTx :: stepEvents arg ++ [Event.commit] ∧
      (TransferTx f db arg).db = db.committed arg ∧
      (TransferTx f db arg).out.Transfer.Amount = arg.Amount ∧
      (TransferTx f db arg).out.Transfer.Amount ≤ 0) := by
  constructor
  · obtain ⟨k, tl, -, -, hlog⟩ := TransferTx_log f db arg
    rw [hlog]
    rfl
  · intro accF accT hb hs hc hF hT hfit
    rw [TransferTx_ok f db arg accF accT hb hs hc hF hT hfit]
    exact ⟨rfl, rfl, rfl, rfl, ha⟩

/-- Witness for C12 (amended): `TransferTx(1, 2, 0)` on scenario 1 without failures. -/
theorem C12_nonpositive_amount_not_rejected_witness :
    (TransferTx Faults.none scenario1
      { FromAccountID := 1, ToAccountID := 2, Amount := 0 }).err = none :=
  ((C12_nonpositive_amount_not_rejected Faults.none scenario1
    { FromAccountID := 1, ToAccountID := 2, Amount := 0 } (by decide)).2
      (BankAccount.mk 1 "alice" 100 "USD" 7) (BankAccount.mk 2 "bob" 50 "USD" 8)
      rfl (by decide) rfl (by decide) (by decide) (by decide)).1

/-- C17. `TransferTx` has no same-account guard. For every existing account `A` with
(`bigint`) balance `b` and every `int64` amount `a`: when all store operations of
`TransferTx(A, A, a)` succeed, that is when the call returns no error, it has recorded a
Transfer from `A` to `A` and two entries `-a` and `+a` on `A`, the stored balance of `A`
is `b` again, and the result holds `b + a` in `ToAccount` (the intermediate snapshot) and
`b` in `FromAccount`. The call does succeed when the environment fails nowhere, `b + a`
fits the `bigint` column and `a` is not `-2^63`. -/
theorem C17_self_transfer (f : Faults) (db : Ledger) (A a : Int) (accA : BankAccount)
    (h64 : isInt64 a) (hA : db.getAccount A = some accA) (hb64 : isInt64 accA.Balance) :
    (f.beginTx = none → f.stmtsOk → f.commit = none →
      isInt64 (accA.Balance + a) → a ≠ minInt64 →
      (TransferTx f db { FromAccountID := A, ToAccountID := A, Amount := a }).err = none) ∧
    ((TransferTx f db { FromAccountID := A, ToAccountID := A, Amount := a }).err = none →
      (TransferTx f db { FromAccountID := A, ToAccountID := A, Amount := a }).out.Transfer.FromAccountID
        = A ∧
      (TransferTx f db { FromAccountID := A, ToAccountID := A, Amount := a }).out.Transfer.ToAccountID
        = A ∧
      (TransferTx f db { FromAccountID := A, ToAccountID := A, Amount := a }).out.Transfer.Amount
        = a ∧
      (TransferTx f db { FromAccountID := A, ToAccountID := A, Amount := a }).db.transfers =
        db.transfers ++
          [(TransferTx f db { FromAccountID := A, ToAccountID := A, Amount := a }).out.Transfer] ∧
      (TransferTx f db { FromAccountID := A, ToAccountID := A, Amount := a }).db.entries =
        db.entries ++
          [(TransferTx f db { FromAccountID := A, ToAccountID := A, Amount := a }).out.FromEntry,
           (TransferTx f db { FromAccountID := A, ToAccountID := A, Amount := a }).out.ToEntry] ∧
      (TransferTx f db { FromAccountID := A, ToAccountID := A, Amount := a }).out.FromEntry.AccountID
        = A ∧
      (TransferTx f db { FromAccountID := A, ToAccountID := A, Amount := a }).out.FromEntry.Amount
        = -a ∧
      (TransferTx f db { FromAccountID := A, ToAccountID := A, Amount := a }).out.ToEntry.AccountID
        = A ∧
      (TransferTx f db { FromAccountID := A, ToAccountID := A, Amount := a }).out.ToEntry.Amount
        = a ∧
      (TransferTx f db { FromAccountID := A, ToAccountID := A, Amount := a }).db.balance A
        = some accA.Balance ∧
      (TransferTx f db { FromAccountID := A, ToAccountID := A, Amount := a }).out.ToAccount.Balance
        = accA.Balance + a ∧
      (TransferTx f db { FromAccountID := A, ToAccountID := A, Amount := a }).out.FromAccount.Balance
        = accA.Balance) := by
  have hid : accA.ID = A := getAccount_ID hA
  have hbump : (bumpBalance A a accA).Balance = accA.Balance + a := by
    rw [bumpBalance_Balance, if_pos hid]
  constructor
  · intro hb hs hc hr hmin
    have hneg : neg64 a = -a := neg64_eq_neg (lt_of_le_of_ne h64.1 (Ne.symm hmin)) h64.2
    have hfit : balancesFit { FromAccountID := A, ToAccountID := A, Amount := a } accA accA := by
      refine ⟨hr, ?_⟩
      simp only [hbump, hneg]
      have : accA.Balance + a + -a = accA.Balance := by ring
      rw [this]
      exact hb64
    rw [TransferTx_ok f db _ accA accA hb (fiveOk_of_stmtsOk hs) hc hA hA hfit]
  · intro hok
    obtain ⟨hb, hs, hc, accF, accT, hF, hT, hfit⟩ := TransferTx_inv f db _ hok
    simp only [hA, Option.some.injEq] at hF hT
    subst hF
    subst hT
    have hmin : a ≠ minInt64 := by
      intro h
      have h2 := hfit.2
      simp only [hbump] at h2
      subst h
      unfold isInt64 at h2 hb64
      unfold neg64 wrapInt64 minInt64 at h2
      unfold minInt64 maxInt64 at hb64
      omega
    have hneg : neg64 a = -a := neg64_eq_neg (lt_of_le_of_ne h64.1 (Ne.symm hmin)) h64.2
    have hbal : (db.committed { FromAccountID := A, ToAccountID := A, Amount := a }).balance A
        = some accA.Balance := by
      rw [committed_balance]
      simp only [Ledger.balance, hA, Option.map_some', if_true, hneg, Option.some.injEq]
      ring
    rw [TransferTx_ok f db _ accA accA hb hs hc hA hA hfit]
    refine ⟨rfl, rfl, rfl, rfl, rfl, rfl, hneg, rfl, rfl, hbal, hbump, ?_⟩
    simp only [committedResult, bumpBalance_Balance, bumpBalance_ID, hid, if_true, hneg]
    ring

/-- Witness for C17: `TransferTx(1, 1, 30)` on scenario 1 without failures succeeds and
leaves the balance of account 1 at 100. -/
theorem C17_self_transfer_witness :
    (TransferTx Faults.none scenario1
      { FromAccountID := 1, ToAccountID := 1, Amount := 30 }).err = none ∧
    (TransferTx Faults.none scenario1
      { FromAccountID := 1, ToAccountID := 1, Amount := 30 }).db.balance 1 = some 100 ∧
    (TransferTx Faults.none scenario1
      { FromAccountID := 1, ToAccountID := 1, Amount := 30 }).out.ToAccount.Balance = 100 + 30 :=
  ⟨(C17_self_transfer Faults.none scenario1 1 30 (BankAccount.mk 1 "alice" 100 "USD" 7)
      (by decide) (by decide) (by decide)).1 rfl (by intro o ho; cases ho) rfl
      (by decide) (by decide),
    ((C17_self_transfer Faults.none scenario1 1 30 (BankAccount.mk 1 "alice" 100 "USD" 7)
      (by decide) (by decide) (by decide)).2 (by decide)).2.2.2.2.2.2.2.2.2.1,
    ((C17_self_transfer Faults.none scenario1 1 30 (BankAccount.mk 1 "alice" 100 "USD" 7)
      (by decide) (by decide) (by decide)).2 (by decide)).2.2.2.2.2.2.2.2.2.2.1⟩

/-- C19. When the transaction of `TransferTx` begins and its statement number `k + 1`
(`1 ≤ k < 5`) fails after the first `k` succeeded, the call returns an error, the store
is left as it was, and the result returned with the error still holds what the first `k`
statements returned: the Transfer of `CreateTransfer` (in every run that begins the
transaction the result holds what `CreateTransfer` returned), the entries of the entry creations
that succeeded and the snapshot of the first balance mutation if it succeeded; the other
fields are zero values. The result is the zero value exactly when the transaction could
not be begun or `CreateTransfer` itself failed. -/
theorem C19_partial_result_on_failure (f : Faults) (db : Ledger) (arg : CreateTransferParams) :
    ((TransferTx f db arg).out = TransferTxResult.zero ↔
      (f.beginTx ≠ none ∨
        ((New { base := db, faults := f }).CreateTransfer arg).1.2 ≠ none)) ∧
    (f.beginTx = none → (TransferTx f db arg).out.Transfer =
      ((New { base := db, faults := f }).CreateTransfer arg).1.1) ∧
    (∀ (e : GoError) (k : Nat) (rest : List (Option GoError)) (accF accT : BankAccount),
      f.beginTx = none → 1 ≤ k → k < 5 →
      f.stmts = List.replicate k none ++ some e :: rest →
      db.getAccount arg.FromAccountID = some accF →
      db.getAccount arg.ToAccountID = some accT →
      balancesFit arg accF accT →
      (TransferTx f db arg).err ≠ none ∧
      (TransferTx f db arg).db = db ∧
      (TransferTx f db arg).out =
        { Transfer := db.newTransfer arg,
          FromEntry := if 2 ≤ k then (committedResult db arg accF accT).FromEntry
            else Entry.zero,
          ToEntry := if 3 ≤ k then (committedResult db arg accF accT).ToEntry
            else Entry.zero,
          FromAccount := if k = 4 ∧ arg.FromAccountID < arg.ToAccountID then
              bumpBalance arg.FromAccountID (neg64 arg.Amount) accF
            else BankAccount.zero,
          ToAccount := if k = 4 ∧ ¬ arg.FromAccountID < arg.ToAccountID then
              bumpBalance arg.ToAccountID arg.Amount accT
            else BankAccount.zero }) := by
  obtain ⟨hout1, hout2⟩ := TransferTx_out f db arg
  refine ⟨?_, ?_, ?_⟩
  · constructor
    · intro hz
      by_cases hb : f.beginTx = none
      · right
        intro hct
        have h1 := transferFn_out_Transfer arg TransferTxResult.zero
          (New { base := db, faults := f })
        rw [← hout1 hb, hz,
          (CreateTransfer_value (New { base := db, faults := f }) arg).1 hct] at h1
        exact newTransfer_ne_zero _ arg h1.symm
      · exact Or.inl hb
    · intro h
      by_cases hb : f.beginTx = none
      · rcases h with h | h
        · exact absurd hb h
        · rw [hout1 hb, transferFn_out_of_CreateTransfer_failed arg _ _ h]
          rfl
      · exact hout2 hb
  · intro hb
    rw [hout1 hb]
    exact transferFn_out_Transfer arg _ _
  · intro e k rest accF accT hb hk1 hk hs hF hT hfit
    obtain ⟨he, -⟩ := transferFn_fault arg TransferTxResult.zero
      (New { base := db, faults := f }) e accF accT k rest hk hs hF hT hfit
    obtain ⟨hdb, -, -, herr⟩ := TransferTx_rollback_run f db arg e hb he
    have hval := transferFn_fault_out arg (New { base := db, faults := f }) e accF accT k rest
      hk1 hk hs hF hT hfit
    refine ⟨by rw [herr]; simp, hdb, ?_⟩
    rw [hout1 hb, hval]
    rfl

/-- Witness for C19: on scenario 1 the fourth statement of `TransferTx(1, 2, 30)` (the first
balance mutation) fails; the result returned with the error holds the Transfer and both
entries, its accounts are zero values, and the store is unchanged. -/
theorem C19_partial_result_on_failure_witness :
    (TransferTx (Faults.mk none [none, none, none, some (GoError.mk "deadlock detected")] none none)
      scenario1 { FromAccountID := 1, ToAccountID := 2, Amount := 30 }).err ≠ none ∧
    (TransferTx (Faults.mk none [none, none, none, some (GoError.mk "deadlock detected")] none none)
      scenario1 { FromAccountID := 1, ToAccountID := 2, Amount := 30 }).db = scenario1 :=
  ⟨((C19_partial_result_on_failure
      (Faults.mk none [none, none, none, some (GoError.mk "deadlock detected")] none none)
      scenario1 { FromAccountID := 1, ToAccountID := 2, Amount := 30 }).2.2
        (GoError.mk "deadlock detected") 3 []
        (BankAccount.mk 1 "alice" 100 "USD" 7) (BankAccount.mk 2 "bob" 50 "USD" 8)
        rfl (by decide) (by decide) rfl (by decide) (by decide) (by decide)).1,
    ((C19_partial_result_on_failure
      (Faults.mk none [none, none, none, some (GoError.mk "deadlock detected")] none none)
      scenario1 { FromAccountID := 1, ToAccountID := 2, Amount := 30 }).2.2
        (GoError.mk "deadlock detected") 3 []
        (BankAccount.mk 1 "alice" 100 "USD" 7) (BankAccount.mk 2 "bob" 50 "USD" 8)
        rfl (by decide) (by decide) rfl (by decide) (by decide) (by decide)).2.1⟩

/-- C14. For every authenticated `GET /bank_accounts/:id` request, `getBankAccount`
answers 400 without calling the store when `id < 1`; for `id ≥ 1` it calls the store once
and answers 404 when the store returns `sql.ErrNoRows`, 500 when it returns any other
error, 403 when the owner of the account is not the authenticated user, and 200 with the
stored account otherwise. An account in the body always belongs to the authenticated
user. -/
theorem C14_getBankAccount_responses (store : Store) (username : String) (id : Int) :
    (id < 1 →
      (getBankAccount store username id).resp.code = StatusBadRequest ∧
      (getBankAccount store username id).calls = []) ∧
    (isInt64 id → 1 ≤ id →
      (getBankAccount store username id).calls = [id] ∧
      ((store.GetBankAccount id).2 = some ErrNoRows →
        (getBankAccount store username id).resp.code = StatusNotFound) ∧
      (∀ e, (store.GetBankAccount id).2 = some e → e ≠ ErrNoRows →
        (getBankAccount store username id).resp.code = StatusInternalServerError) ∧
      ((store.GetBankAccount id).2 = none → (store.GetBankAccount id).1.Owner ≠ username →
        (getBankAccount store username id).resp.code = StatusForbidden) ∧
      ((store.GetBankAccount id).2 = none → (store.GetBankAccount id).1.Owner = username →
        (getBankAccount store username id).resp =
          { code := StatusOK, body := Body.account (store.GetBankAccount id).1 })) ∧
    (∀ a, (getBankAccount store username id).resp.body = Body.account a →
      a.Owner = username) := by
  refine ⟨?_, ?_, ?_⟩
  · intro hlt
    have hb : bindGetBankAccountRequest id ≠ none := by
      intro h
      have := ((bindGetBankAccountRequest_none_iff id).1 h).2
      omega
    unfold getBankAccount
    cases hbind : bindGetBankAccountRequest id with
    | none => exact absurd hbind hb
    | some err => exact ⟨rfl, rfl⟩
  · intro h64 h1
    have hbind := (bindGetBankAccountRequest_none_iff id).2 ⟨h64, h1⟩
    unfold getBankAccount
    rw [hbind]
    simp only []
    cases hs : (store.GetBankAccount id).2 with
    | some err =>
      by_cases he : err = ErrNoRows
      · simp [he]
      · simp [he]
    | none =>
      by_cases ho : (store.GetBankAccount id).1.Owner = username
      · simp [ho]
      · simp [ho]
  · intro a
    unfold getBankAccount
    cases hbind : bindGetBankAccountRequest id with
    | some err => simp [errorResponse]
    | none =>
      simp only []
      cases hs : (store.GetBankAccount id).2 with
      | some err =>
        by_cases he : err = ErrNoRows
        · simp [he, errorResponse]
        · simp [he, errorResponse]
      | none =>
        by_cases ho : (store.GetBankAccount id).1.Owner = username
        · simp only [ho, ne_eq, not_true_eq_false, if_false, Body.account.injEq]
          intro h
          rw [← h]
          exact ho
        · simp [ho, errorResponse]

/-- Witness for C14: on the example store the owner `alice` gets account 1 with status 200,
and `bob` gets status 403 for the same account. -/
theorem C14_getBankAccount_responses_witness :
    (getBankAccount exampleStore "alice" 1).resp =
      { code := StatusOK, body := Body.account (exampleStore.GetBankAccount 1).1 } ∧
    (getBankAccount exampleStore "bob" 1).resp.code = StatusForbidden :=
  ⟨((C14_getBankAccount_responses exampleStore "alice" 1).2.1 (by decide)
      (by decide)).2.2.2.2 (by decide) (by decide),
    ((C14_getBankAccount_responses exampleStore "bob" 1).2.1 (by decide)
      (by decide)).2.2.2.1 (by decide) (by decide)⟩

/-- Counterexample to C15 as stated: the request `page_id = 2147483647`, `page_size = 10`
of user `bob` passes validation and is answered with status 200 after one store call with
`Owner = bob` and `Limit = 10`, but the offset of that call is `-20`, whereas
`(page_id - 1) * page_size` is `21474836460`: the `int32` multiplication wrapped around. -/
theorem C15_counterexample :
    bindListBankAccountsRequest 2147483647 10 = none ∧
    (listBankAccounts exampleStore "bob" 2147483647 10).resp.code = StatusOK ∧
    (listBankAccounts exampleStore "bob" 2147483647 10).calls =
      [{ Owner := "bob", Limit := 10, Offset := -20 }] ∧
    ((2147483647 : Int) - 1) * 10 = 21474836460 ∧
    (listBankAccounts exampleStore "bob" 2147483647 10).calls ≠
      [{ Owner := "bob", Limit := 10, Offset := ((2147483647 : Int) - 1) * 10 }] := by
  decide

/-- C15 (amended). For every authenticated list request that passes validation
(`page_id ≥ 1`, `1 ≤ page_size ≤ 10`, `page_id` an `int32`), `listBankAccounts` calls the
store exactly once, with `Owner` the authenticated user and `Limit = page_size`; if moreover
the product `(page_id - 1) * page_size` is at most `2^31 - 1`, the `Offset` of that call is
`(page_id - 1) * page_size`. For a request with `page_id < 1` or `page_size` outside `1..10`
it answers 400 and never calls the store. -/
theorem C15_listBankAccounts_query (store : Store) (username : String)
    (pageID pageSize : Int) :
    (isInt32 pageID → 1 ≤ pageID → 1 ≤ pageSize → pageSize ≤ 10 →
      (listBankAccounts store username pageID pageSize).calls.map
          (fun c => (c.Owner, c.Limit)) = [(username, pageSize)] ∧
      ((pageID - 1) * pageSize ≤ maxInt32 →
        (listBankAccounts store username pageID pageSize).calls =
          [{ Owner := username, Limit := pageSize, Offset := (pageID - 1) * pageSize }])) ∧
    ((pageID < 1 ∨ pageSize < 1 ∨ 10 < pageSize) →
      (listBankAccounts store username pageID pageSize).resp.code = StatusBadRequest ∧
      (listBankAccounts store username pageID pageSize).calls = []) := by
  constructor
  · intro h32 h1 h2 h3
    have hcalls := listBankAccounts_valid store username pageID pageSize h32 h1 h2 h3
    refine ⟨by rw [hcalls]; rfl, ?_⟩
    intro hfit
    rw [hcalls, (offset_exact pageID pageSize h32 h1 h2 hfit).1]
  · intro hbad
    have hb : bindListBankAccountsRequest pageID pageSize ≠ none := by
      intro h
      obtain ⟨-, -, h1, h2, h3⟩ := (bindListBankAccountsRequest_none_iff pageID pageSize).1 h
      omega
    unfold listBankAccounts
    cases hbind : bindListBankAccountsRequest pageID pageSize with
    | none => exact absurd hbind hb
    | some err => exact ⟨rfl, rfl⟩

/-- Witness for C15 (amended): the request `page_id = 3`, `page_size = 5` of user `alice`
queries the example store once, with limit 5 and offset 10. -/
theorem C15_listBankAccounts_query_witness :
    (listBankAccounts exampleStore "alice" 3 5).calls =
      [{ Owner := "alice", Limit := 5, Offset := (3 - 1) * 5 }] :=
  ((C15_listBankAccounts_query exampleStore "alice" 3 5).1 (by decide) (by decide)
    (by decide) (by decide)).2 (by decide)

/-- C16. `JWTGenerator.ValidateToken`, for any parsing library: whenever it returns an
error the payload is nil and the error is `ErrExpiredToken` or `ErrInvalidToken`. If the
library hands the error of the key function back as the `Inner` of its validation error
(as `jwt.ParseWithClaims` does), then for every token whose signing method is not an HMAC
method, for example `none`, it returns a nil payload and `ErrInvalidToken`. -/
theorem C16_validate_token_errors {P : Type} (parse : ParseWithClaims P)
    (ErrInvalidToken ErrExpiredToken : GoError) (secretKey token : String) :
    (∀ e, (JWTGenerator.ValidateToken parse ErrInvalidToken ErrExpiredToken secretKey token).2
        = some e →
      (JWTGenerator.ValidateToken parse ErrInvalidToken ErrExpiredToken secretKey token).1
        = none ∧
      (e = ErrExpiredToken ∨ e = ErrInvalidToken)) ∧
    (∀ (methodOf : String → Option SigningMethod) (m : SigningMethod),
      (∀ tok keyFunc mm err, methodOf tok = some mm → keyFunc mm = Except.error err →
        parse tok keyFunc = Except.error (ParseError.validation (some err))) →
      methodOf token = some m → m ≠ SigningMethod.hmac →
      JWTGenerator.ValidateToken parse ErrInvalidToken ErrExpiredToken secretKey token
        = (none, some ErrInvalidToken)) := by
  constructor
  · intro e he
    unfold JWTGenerator.ValidateToken at he ⊢
    simp only [] at he ⊢
    split at he
    · rename_i inner hp
      by_cases hi : inner = some ErrExpiredToken
      · simp only [hi, if_true, Option.some.injEq] at he ⊢
        exact ⟨trivial, Or.inl he.symm⟩
      · simp only [hi, if_false, Option.some.injEq] at he ⊢
        exact ⟨trivial, Or.inr he.symm⟩
    · simp only [Option.some.injEq] at he
      exact ⟨rfl, Or.inr he.symm⟩
    · simp only [Option.some.injEq] at he
      exact ⟨rfl, Or.inr he.symm⟩
    · cases he
  · intro methodOf m hlib hm hne
    unfold JWTGenerator.ValidateToken
    simp only []
    rw [hlib token _ m ErrInvalidToken hm (by cases m <;> first | rfl | exact absurd rfl hne)]
    by_cases hi : ErrInvalidToken = ErrExpiredToken
    · simp [hi]
    · simp [hi]

/-- Witness for C16: with the steps of the library on the example tokens, the token signed
with method `none` is refused with `ErrInvalidToken` and a nil payload. -/
theorem C16_validate_token_errors_witness :
    JWTGenerator.ValidateToken (jwtParseWithClaims exampleDecode)
      (GoError.mk "token is invalid") (GoError.mk "token has expired") "secret" "none.token"
        = (none, some (GoError.mk "token is invalid")) :=
  (C16_validate_token_errors (jwtParseWithClaims exampleDecode)
    (GoError.mk "token is invalid") (GoError.mk "token has expired") "secret" "none.token").2
    (fun tok => (exampleDecode tok).map (fun t => t.method)) SigningMethod.noneAlg
    (by
      intro tok keyFunc mm err hm hk
      unfold jwtParseWithClaims
      cases hd : exampleDecode tok with
      | none => simp [hd] at hm
      | some t =>
        simp only [hd, Option.map_some', Option.some.injEq] at hm
        simp only [hd, hm, hk])
    (by decide) (by decide)

/-- Counterexample to C18 as stated: the request `page_id = 214748366`, `page_size = 10`
passes validation, the product `(page_id - 1) * page_size` is `2147483650`, and the offset
handed to the store is `-2147483646`: the `int32` multiplication wrapped around. -/
theorem C18_counterexample :
    bindListBankAccountsRequest 214748366 10 = none ∧
    (listBankAccounts exampleStore "alice" 214748366 10).calls.map (fun c => c.Offset)
      = [-2147483646] ∧
    ((214748366 : Int) - 1) * 10 = 2147483650 ∧
    (listBankAccounts exampleStore "alice" 214748366 10).calls.map (fun c => c.Offset)
      ≠ [((214748366 : Int) - 1) * 10] := by
  decide

/-- C18 (amended). For every list request that passes validation (`page_id ≥ 1`,
`1 ≤ page_size ≤ 10`, both `int32`) and whose product `(page_id - 1) * page_size` is at
most `2^31 - 1`, which is the case whenever `page_id ≤ 214748365`, the offset that
`listBankAccounts` computes in 32-bit arithmetic is the mathematical product and is
non-negative. -/
theorem C18_offset_without_wrap (store : Store) (username : String) (pageID pageSize : Int)
    (h32 : isInt32 pageID) (h1 : 1 ≤ pageID) (h2 : 1 ≤ pageSize) (h3 : pageSize ≤ 10) :
    ((pageID - 1) * pageSize ≤ maxInt32 →
      (listBankAccounts store username pageID pageSize).calls.map (fun c => c.Offset)
        = [(pageID - 1) * pageSize] ∧
      0 ≤ (pageID - 1) * pageSize) ∧
    (pageID ≤ 214748365 → (pageID - 1) * pageSize ≤ maxInt32) := by
  constructor
  · intro hfit
    obtain ⟨hoff, hnn⟩ := offset_exact pageID pageSize h32 h1 h2 hfit
    rw [listBankAccounts_valid store username pageID pageSize h32 h1 h2 h3]
    exact ⟨by simp [hoff], hnn⟩
  · intro hp
    unfold maxInt32
    have hle : (pageID - 1) * pageSize ≤ (pageID - 1) * 10 :=
      mul_le_mul_of_nonneg_left h3 (by omega)
    omega

/-- Witness for C18 (amended): `page_id = 214748365`, `page_size = 10` gives the offset
`2147483640`, the product itself. -/
theorem C18_offset_without_wrap_witness :
    (listBankAccounts exampleStore "alice" 214748365 10).calls.map (fun c => c.Offset)
      = [((214748365 : Int) - 1) * 10] :=
  (((C18_offset_without_wrap exampleStore "alice" 214748365 10 (by decide) (by decide)
    (by decide) (by decide)).1) (by decide)).1

end Bank
